import Mathlib

/-!
# falcore `Pipeline` (pipeline.go): execution semantics

A shallow embedding of `pipeline.go`.

* `σ` is the per-request world that filters and routers can read and change through the
  `*Request` they are handed (the request itself, the responses allocated so far, any state
  behind the filters).  Every Go call that receives `req` is a function on `σ`.
* `ρ` is the type of non-nil `*http.Response` pointers; a nullable pointer is an `Option ρ`.
  What a response points to lives in `σ`, which is how `FilterResponse` mutates it in place.
* The calls the pipeline makes (stage tracking, router and filter invocations, the log line)
  are recorded, in order, as a list of `Event`s next to the world; filters cannot touch it.
* A `Pipeline` is a finite tree: the nested pipelines and the pipelines a router can select are
  sub-terms of the pipeline holding them, so `execute` is defined by structural recursion.
* For what `execute` does to the pipeline itself, a second embedding (`executeH`) keeps the
  `Pipeline` structs in a heap, with pointers between them, and reads them from there.
-/

namespace Falcore

/-- The calls made by the pipeline code, in the order they are made. -/
inductive Event where
  /-- The call `req.startPipelineStage(name)`. -/
  | startPipelineStage (name : String)
  /-- The call `req.finishPipelineStage()`. -/
  | finishPipelineStage
  /-- The call `filter.SelectPipeline(req)` on a router of the named type. -/
  | SelectPipeline (typeName : String)
  /-- The call `filter.FilterRequest(req)` on a request filter (not a pipeline) of the named type. -/
  | FilterRequest (typeName : String)
  /-- The call `filter.FilterResponse(req, res)` on a response filter of the named type. -/
  | FilterResponse (typeName : String)
  /-- The call `log.Printf("%v is not a RequestFilter\n", e.Value)`, with the rendering of the value. -/
  | Printf (text : String)
  deriving DecidableEq

/-- The methods, other than `SelectPipeline`, of a Go value that is not a `*Pipeline`:
`typeName` is `reflect.TypeOf(v).String()`, `text` is its `%v` rendering, and each optional
field is present exactly when the value has that method (satisfies that interface). -/
structure Methods (σ ρ : Type) where
  typeName : String
  text : String
  FilterRequest : Option (σ → σ × Option ρ)
  FilterResponse : Option (σ → ρ → σ)

mutual
/-- The struct `Pipeline` (pipeline.go:24-28); the two `*list.List`s are lists of values. -/
inductive Pipeline (σ ρ : Type) : Type
  | mk (Upstream : List (Value σ ρ)) (Downstream : List (Value σ ρ))
      (RequestDoneCallback : Option (RequestFilter σ ρ))
/-- A non-nil value of interface type `RequestFilter`: a `*Pipeline`, or any other value with
a `FilterRequest` method. -/
inductive RequestFilter (σ ρ : Type) : Type
  | pipeline (p : Pipeline σ ρ)
  | leaf (typeName : String) (FilterRequest : σ → σ × Option ρ)
/-- An `interface{}` value stored in a list, seen through what the type switches of
pipeline.go can tell about it: a `*Pipeline`, a value with a `SelectPipeline` method (a
`Router`, whatever else it has), or any other value. -/
inductive Value (σ ρ : Type) : Type
  | pipeline (p : Pipeline σ ρ)
  | router (m : Methods σ ρ) (SelectPipeline : σ → σ × Option (RequestFilter σ ρ))
  | other (m : Methods σ ρ)
end

/-- Field `Upstream`. -/
def Pipeline.Upstream {σ ρ : Type} : Pipeline σ ρ → List (Value σ ρ)
  | .mk u _ _ => u

/-- Field `Downstream`. -/
def Pipeline.Downstream {σ ρ : Type} : Pipeline σ ρ → List (Value σ ρ)
  | .mk _ d _ => d

/-- Field `RequestDoneCallback`. -/
def Pipeline.RequestDoneCallback {σ ρ : Type} : Pipeline σ ρ → Option (RequestFilter σ ρ)
  | .mk _ _ c => c

/-- Go `NewPipeline` (pipeline.go:30-35). -/
def NewPipeline {σ ρ : Type} : Pipeline σ ρ :=
  .mk [] [] none

/-- Modelled from the spec: the collaborators of pipeline.go whose code is not in
pipeline.go.  `startPipelineStage` and `finishPipelineStage` are the stage-tracking facility
of the request (spec §3, §6); what they do to the request is left open.  `SimpleResponse` is
the default-response builder (spec §1, §6), which from the request, a status code, headers
and a body "produces a well-formed response object": it returns a non-nil pointer, and the
world in which that response exists. -/
structure Env (σ ρ : Type) where
  startPipelineStage : String → σ → σ
  finishPipelineStage : σ → σ
  SimpleResponse : σ → Nat → List (String × String) → String → σ × ρ

/-- What a piece of pipeline code leaves behind: the world, the calls it made, and the
(nullable) response pointer it produced. -/
structure Out (σ ρ : Type) where
  req : σ
  trace : List Event
  res : Option ρ
  deriving DecidableEq

/-- The same outcome, reached after the calls `pre` were made first. -/
def Out.after {σ ρ : Type} (pre : List Event) (o : Out σ ρ) : Out σ ρ :=
  { o with trace := pre ++ o.trace }

/-- The type assertion `e.Value.(ResponseFilter)` (pipeline.go:89): the type name and the
`FilterResponse` method when the value has one.  A `*Pipeline` has none. -/
def Value.asResponseFilter {σ ρ : Type} : Value σ ρ → Option (String × (σ → ρ → σ))
  | .pipeline _ => none
  | .router m _ => m.FilterResponse.map (fun g => (m.typeName, g))
  | .other m => m.FilterResponse.map (fun g => (m.typeName, g))

/-- Go `Pipeline.down` (pipeline.go:87-98) on the list `p.Downstream`: the world after the loop
and the calls made.  The response pointer itself is not changed. -/
def down {σ ρ : Type} (env : Env σ ρ) : List (Value σ ρ) → σ → ρ → σ × List Event
  | [], req, _ => (req, [])
  | e :: es, req, res =>
    match e.asResponseFilter with
    | some (t, g) =>
      let req1 := env.startPipelineStage t req
      let req2 := g req1 res
      let req3 := env.finishPipelineStage req2
      let r := down env es req3 res
      (r.1, [Event.startPipelineStage t, Event.FilterResponse t, Event.finishPipelineStage] ++ r.2)
    | none => (req, [])

/-- Lines 69-72 of `execute`: the response in hand, or else the default 404 response. -/
def orDefault {σ ρ : Type} (env : Env σ ρ) (u : Out σ ρ) : σ × ρ :=
  match u.res with
  | some r => (u.req, r)
  | none => env.SimpleResponse u.req 404 [] "Not found\n"

/-- Go `Pipeline.execFilter` (pipeline.go:78-85) on a filter that is not a `*Pipeline`: the
stage is started, the filter runs, and the deferred `finishPipelineStage` runs on return. -/
def execLeaf {σ ρ : Type} (env : Env σ ρ) (typeName : String) (f : σ → σ × Option ρ)
    (req : σ) : Out σ ρ :=
  let req1 := env.startPipelineStage typeName req
  let r := f req1
  ⟨env.finishPipelineStage r.1,
    [Event.startPipelineStage typeName, Event.FilterRequest typeName,
      Event.finishPipelineStage], r.2⟩

mutual
/-- Go `Pipeline.execute` (pipeline.go:44-76). -/
def execute {σ ρ : Type} (env : Env σ ρ) : Pipeline σ ρ → σ → Out σ ρ
  | .mk Upstream Downstream _, req =>
    let u := upstream env Upstream req
    let d := orDefault env u
    let dn := down env Downstream d.1 d.2
    ⟨dn.1, u.trace ++ dn.2, some d.2⟩
/-- The `for` loop of `execute` (pipeline.go:45-67) from the element `e` on, entered with
`res == nil`. -/
def upstream {σ ρ : Type} (env : Env σ ρ) : List (Value σ ρ) → σ → Out σ ρ
  | [], req => ⟨req, [], none⟩
  | e :: es, req =>
    let o := dispatch env e req
    match o.res with
    | some _ => o
    | none => (upstream env es o.req).after o.trace
/-- The body of the loop (pipeline.go:46-66): the type switch on one upstream element. -/
def dispatch {σ ρ : Type} (env : Env σ ρ) : Value σ ρ → σ → Out σ ρ
  | .router m SelectPipeline, req =>
    let req1 := env.startPipelineStage m.typeName req
    (selected env (SelectPipeline req1)).after
      [Event.startPipelineStage m.typeName, Event.SelectPipeline m.typeName]
  | .pipeline p, req => execute env p req
  | .other m, req =>
    match m.FilterRequest with
    | some f => execLeaf env m.typeName f req
    | none => ⟨req, [Event.Printf m.text], none⟩
/-- The rest of the `Router` case once `SelectPipeline` has returned (pipeline.go:51-57). -/
def selected {σ ρ : Type} (env : Env σ ρ) : σ × Option (RequestFilter σ ρ) → Out σ ρ
  | (req, none) => ⟨env.finishPipelineStage req, [Event.finishPipelineStage], none⟩
  | (req, some pipe) =>
    (execFilter env pipe (env.finishPipelineStage req)).after [Event.finishPipelineStage]
/-- Go `Pipeline.execFilter` (pipeline.go:78-85): a `*Pipeline` is run without a stage of its
own, through its `FilterRequest`, which is `execute`. -/
def execFilter {σ ρ : Type} (env : Env σ ρ) : RequestFilter σ ρ → σ → Out σ ρ
  | .pipeline p, req => execute env p req
  | .leaf typeName FilterRequest, req => execLeaf env typeName FilterRequest req
end

/-- Go `Pipeline.FilterRequest` (pipeline.go:40-42). -/
def FilterRequest {σ ρ : Type} (env : Env σ ρ) (p : Pipeline σ ρ) (req : σ) : Out σ ρ :=
  execute env p req


/-! ## The words of the specification -/

/-- Every element of an upstream list dispatched exactly once, in list order, whatever it
answers: the world this leaves and the calls made. -/
def dispatchEach {σ ρ : Type} (env : Env σ ρ) : List (Value σ ρ) → σ → σ × List Event
  | [], req => (req, [])
  | e :: es, req =>
    let o := dispatch env e req
    let r := dispatchEach env es o.req
    (r.1, o.trace ++ r.2)

/-- None of the elements of the list yields a response: each one, dispatched in the world
left by the ones before it, answers nil. -/
def noResponse {σ ρ : Type} (env : Env σ ρ) : List (Value σ ρ) → σ → Prop
  | [], _ => True
  | e :: es, req => (dispatch env e req).res = none ∧ noResponse env es (dispatch env e req).req

/-- Whether none of the elements yields a response can be computed. -/
instance decidableNoResponse {σ ρ : Type} (env : Env σ ρ) :
    (es : List (Value σ ρ)) → (req : σ) → Decidable (noResponse env es req)
  | [], _ => isTrue trivial
  | e :: es, req =>
    match h : (dispatch env e req).res with
    | some _ => isFalse (fun hn => by rw [hn.1] at h; cases h)
    | none =>
      match decidableNoResponse env es (dispatch env e req).req with
      | isTrue ht => isTrue ⟨h, ht⟩
      | isFalse hf => isFalse (fun hn => hf hn.2)

/-- The world and the response with which `execute` calls `p.down` (pipeline.go:45-72). -/
def handedDown {σ ρ : Type} (env : Env σ ρ) (p : Pipeline σ ρ) (req : σ) : σ × ρ :=
  orDefault env (upstream env p.Upstream req)

/-- The calls around one response filter of the named type. -/
def responseStage (t : String) : List Event :=
  [Event.startPipelineStage t, Event.FilterResponse t, Event.finishPipelineStage]

/-- Every response filter of the list applied exactly once to the response `res`, in list
order, inside a stage of its own, each one in the world left by the one before it. -/
def applyEach {σ ρ : Type} (env : Env σ ρ) (fs : List (String × (σ → ρ → σ))) (req : σ)
    (res : ρ) : σ × List Event :=
  (fs.foldl (fun w f => env.finishPipelineStage (f.2 (env.startPipelineStage f.1 w) res)) req,
    fs.flatMap (fun f => responseStage f.1))

/-- The downstream entries that come before the first one that is not a `ResponseFilter`,
as response filters. -/
def leadingResponseFilters {σ ρ : Type} (ds : List (Value σ ρ)) : List (String × (σ → ρ → σ)) :=
  (ds.takeWhile (fun e => e.asResponseFilter.isSome)).filterMap Value.asResponseFilter

/-- The type switch of `execute` takes its `default` branch on this value: it is neither a
`Router` nor a `RequestFilter`. -/
def Value.unrecognized {σ ρ : Type} : Value σ ρ → Bool
  | .other m => m.FilterRequest.isNone
  | _ => false

/-- The event is the log line of the `default` branch. -/
def Event.isPrintf : Event → Bool
  | .Printf _ => true
  | _ => false

/-! ## A concrete world

Responses are records in a heap, a response pointer is an index into it, and the stage
tracking of the request keeps the stack of open stages. -/

/-- The part of an `http.Response` the examples look at. -/
structure Response where
  StatusCode : Nat
  Header : List (String × String)
  Body : String
  deriving DecidableEq

/-- The responses allocated so far and the stages that are open. -/
structure World where
  responses : List Response
  stages : List String
  deriving DecidableEq

/-- A new response at the end of the heap, and the pointer to it. -/
def World.alloc (w : World) (r : Response) : World × Nat :=
  ({ w with responses := w.responses ++ [r] }, w.responses.length)

/-- The collaborators over `World`: stages are pushed and popped, and `SimpleResponse`
allocates a response with the status, headers and body it is given. -/
def worldEnv : Env World Nat where
  startPipelineStage := fun t w => { w with stages := t :: w.stages }
  finishPipelineStage := fun w => { w with stages := w.stages.tail }
  SimpleResponse := fun w status headers body => w.alloc ⟨status, headers, body⟩

/-- The empty world. -/
def World.empty : World := ⟨[], []⟩

/-- A request filter that answers nil. -/
def FilterA : Value World Nat :=
  .other ⟨"FilterA", "&FilterA", some (fun w => (w, none)), none⟩

/-- A request filter that answers a new response with status 200 and body "ok". -/
def FilterB : Value World Nat :=
  .other ⟨"FilterB", "&FilterB", some (fun w => ((w.alloc ⟨200, [], "ok"⟩).1, some (w.alloc ⟨200, [], "ok"⟩).2)), none⟩

/-- A request filter that answers a new response with status 500: a spy, visible in the
trace and in the heap when it is invoked. -/
def Spy : Value World Nat :=
  .other ⟨"Spy", "&Spy", some (fun w => ((w.alloc ⟨500, [], "spy"⟩).1, some (w.alloc ⟨500, [], "spy"⟩).2)), none⟩

/-- A response filter that appends the header `key: value` to the response it is handed. -/
def AppendHeaderFilter (key value : String) : Value World Nat :=
  .other ⟨"AppendHeaderFilter", "&AppendHeaderFilter", none,
    some (fun w res => ⟨List.modify (fun r => ⟨r.StatusCode, r.Header ++ [(key, value)], r.Body⟩)
      res w.responses, w.stages⟩)⟩

/-- A value with none of the three capabilities. -/
def Junk : Value World Nat :=
  .other ⟨"int", "42", none, none⟩

/-- A router that selects nil. -/
def NilRouter : Value World Nat :=
  .router ⟨"NilRouter", "&NilRouter", none, none⟩ (fun w => (w, none))

/-- A router that selects the given pipeline. -/
def ConstRouter (q : Pipeline World Nat) : Value World Nat :=
  .router ⟨"ConstRouter", "&ConstRouter", none, none⟩ (fun w => (w, some (.pipeline q)))

/-! ## Stage tracking and bounded call depth -/

/-- The stack of open stages after the calls of a trace, starting from a given stack:
`startPipelineStage` pushes the name, `finishPipelineStage` pops, and the answer is `none`
as soon as a finish is called with no stage open. -/
def openStages : List Event → List String → Option (List String)
  | [], st => some st
  | .startPipelineStage n :: t, st => openStages t (n :: st)
  | .finishPipelineStage :: _, [] => none
  | .finishPipelineStage :: t, _ :: st => openStages t st
  | _ :: t, st => openStages t st

/-- The event is the invocation of a router, request filter or response filter of type `n`. -/
def Event.invokes (n : String) : Event → Bool
  | .SelectPipeline k => k == n
  | .FilterRequest k => k == n
  | .FilterResponse k => k == n
  | _ => false

/-- The trace is a sequence of log lines and of stages, each stage being one start named
after the type of the value invoked, one invocation of a value of that type, and one finish,
in that order. -/
def stageBlocks : List Event → Bool
  | [] => true
  | .Printf _ :: t => stageBlocks t
  | .startPipelineStage n :: c :: .finishPipelineStage :: t => c.invokes n && stageBlocks t
  | _ => false

/-- The event is a call of `startPipelineStage`. -/
def Event.isStart : Event → Bool
  | .startPipelineStage _ => true
  | _ => false

/-- The event is a call of `finishPipelineStage`. -/
def Event.isFinish : Event → Bool
  | .finishPipelineStage => true
  | _ => false

/-- The event is the invocation of a router, a request filter or a response filter. -/
def Event.isInvocation : Event → Bool
  | .SelectPipeline _ => true
  | .FilterRequest _ => true
  | .FilterResponse _ => true
  | _ => false

/-- Go `Pipeline.execFilter` where the call `filter.FilterRequest(req)` on a `*Pipeline` is
answered by `exec`, which may fail to return (`none`). -/
def execFilterWith {σ ρ : Type} (env : Env σ ρ) (exec : Pipeline σ ρ → σ → Option (Out σ ρ)) :
    RequestFilter σ ρ → σ → Option (Out σ ρ)
  | .pipeline p, req => exec p req
  | .leaf typeName f, req => some (execLeaf env typeName f req)

/-- The rest of the `Router` case (pipeline.go:51-57), nested calls answered by `exec`. -/
def selectedWith {σ ρ : Type} (env : Env σ ρ) (exec : Pipeline σ ρ → σ → Option (Out σ ρ)) :
    σ × Option (RequestFilter σ ρ) → Option (Out σ ρ)
  | (req, none) => some ⟨env.finishPipelineStage req, [Event.finishPipelineStage], none⟩
  | (req, some pipe) =>
    (execFilterWith env exec pipe (env.finishPipelineStage req)).map
      (Out.after [Event.finishPipelineStage])

/-- The type switch on one upstream element (pipeline.go:46-66), nested calls answered by
`exec`. -/
def dispatchWith {σ ρ : Type} (env : Env σ ρ) (exec : Pipeline σ ρ → σ → Option (Out σ ρ)) :
    Value σ ρ → σ → Option (Out σ ρ)
  | .router m SelectPipeline, req =>
    (selectedWith env exec (SelectPipeline (env.startPipelineStage m.typeName req))).map
      (Out.after [Event.startPipelineStage m.typeName, Event.SelectPipeline m.typeName])
  | .pipeline p, req => exec p req
  | .other m, req =>
    match m.FilterRequest with
    | some f => some (execLeaf env m.typeName f req)
    | none => some ⟨req, [Event.Printf m.text], none⟩

/-- The `for` loop of `execute` (pipeline.go:45-67), nested calls answered by `exec`. -/
def upstreamWith {σ ρ : Type} (env : Env σ ρ) (exec : Pipeline σ ρ → σ → Option (Out σ ρ)) :
    List (Value σ ρ) → σ → Option (Out σ ρ)
  | [], req => some ⟨req, [], none⟩
  | e :: es, req =>
    match dispatchWith env exec e req with
    | none => none
    | some o =>
      match o.res with
      | some _ => some o
      | none => (upstreamWith env exec es o.req).map (Out.after o.trace)

/-- Go `Pipeline.execute` run with a bound on the depth of its recursion through
`execFilter`: with `n` calls of `execute` allowed on the stack, the outcome, or `none` when
the bound is hit before the call returns.  The recursion is on the bound, not on the
pipeline. -/
def executeFuel {σ ρ : Type} (env : Env σ ρ) : Nat → Pipeline σ ρ → σ → Option (Out σ ρ)
  | 0, _, _ => none
  | n + 1, p, req =>
    (upstreamWith env (executeFuel env n) p.Upstream req).map (fun u =>
      ⟨(down env p.Downstream (orDefault env u).1 (orDefault env u).2).1,
        u.trace ++ (down env p.Downstream (orDefault env u).1 (orDefault env u).2).2,
        some (orDefault env u).2⟩)

/-- A router that selects nil and also has a `FilterRequest` method, which would answer a
new response with status 500. -/
def RouterAndFilter : Value World Nat :=
  .router ⟨"RouterAndFilter", "&RouterAndFilter",
    some (fun w => ((w.alloc ⟨500, [], "spy"⟩).1, some (w.alloc ⟨500, [], "spy"⟩).2)), none⟩
    (fun w => (w, none))

/-- A request filter value (not a list entry) that answers a new response with status 500,
to be used as a completion callback. -/
def SpyCallback : RequestFilter World Nat :=
  .leaf "SpyCallback" (fun w => ((w.alloc ⟨500, [], "spy"⟩).1, some (w.alloc ⟨500, [], "spy"⟩).2))

/-- What the request filter of `SelfRouter` does: it answers a new response with status 500. -/
def selfFilterRequest (w : World) : World × Option Nat :=
  ((w.alloc ⟨500, [], "self"⟩).1, some (w.alloc ⟨500, [], "self"⟩).2)

/-- A value with both a `SelectPipeline` and a `FilterRequest` method whose `SelectPipeline`
returns the value itself, as the `RequestFilter` it also is (in falcore `SelectPipeline`
returns a `RequestFilter`; here that is the leaf with the same type name and the same
`FilterRequest`). -/
def SelfRouter : Value World Nat :=
  .router ⟨"SelfRouter", "&SelfRouter", some selfFilterRequest, none⟩
    (fun w => (w, some (.leaf "SelfRouter" selfFilterRequest)))

/-! ## The pipeline as an object in the heap

In Go the receiver of `execute` is a pointer, and so is every nested pipeline.  Here the
`Pipeline` structs live in a heap next to the request world, a `*Pipeline` is an index into
it, and `execute` reads the receiver's lists from the heap when it uses them.  Pipelines may
then share or contain one another, so the recursion is bounded by a depth, as in
`executeFuel`.  Filters, routers and collaborators are handed `req` (and `res`), as in
pipeline.go, and are functions on the request world. -/

/-- A non-nil value of interface type `RequestFilter`, a `*Pipeline` being a pointer. -/
inductive FilterRef (σ ρ : Type) : Type
  | pipeline (ptr : Nat)
  | leaf (typeName : String) (FilterRequest : σ → σ × Option ρ)

/-- An `interface{}` value stored in a list, a `*Pipeline` being a pointer. -/
inductive Elem (σ ρ : Type) : Type
  | pipeline (ptr : Nat)
  | router (m : Methods σ ρ) (SelectPipeline : σ → σ × Option (FilterRef σ ρ))
  | other (m : Methods σ ρ)

/-- The struct `Pipeline` (pipeline.go:24-28) as it lies in the heap, with the contents of
its two lists. -/
structure PipelineObj (σ ρ : Type) where
  Upstream : List (Elem σ ρ)
  Downstream : List (Elem σ ρ)
  RequestDoneCallback : Option (FilterRef σ ρ)

/-- The heap: the `Pipeline` structs allocated (a `*Pipeline` is an index into the list; an
index out of range is a nil or dangling pointer), and the request world. -/
structure Heap (σ ρ : Type) where
  pipelines : List (PipelineObj σ ρ)
  req : σ

/-- What a piece of pipeline code leaves behind, in the heap model. -/
structure Ran (σ ρ : Type) where
  heap : Heap σ ρ
  trace : List Event
  res : Option ρ

/-- The same outcome, reached after the calls `pre` were made first. -/
def Ran.after {σ ρ : Type} (pre : List Event) (o : Ran σ ρ) : Ran σ ρ :=
  { o with trace := pre ++ o.trace }

/-- The type assertion `e.Value.(ResponseFilter)` (pipeline.go:89). -/
def Elem.asResponseFilter {σ ρ : Type} : Elem σ ρ → Option (String × (σ → ρ → σ))
  | .pipeline _ => none
  | .router m _ => m.FilterResponse.map (fun g => (m.typeName, g))
  | .other m => m.FilterResponse.map (fun g => (m.typeName, g))

/-- Go `Pipeline.down` (pipeline.go:87-98) on the elements of the list `p.Downstream`, as a
transformer of the heap. -/
def downH {σ ρ : Type} (env : Env σ ρ) : List (Elem σ ρ) → Heap σ ρ → ρ → Heap σ ρ × List Event
  | [], h, _ => (h, [])
  | e :: es, h, res =>
    match e.asResponseFilter with
    | some (t, g) =>
      let h1 : Heap σ ρ := { h with req := env.startPipelineStage t h.req }
      let h2 : Heap σ ρ := { h1 with req := g h1.req res }
      let h3 : Heap σ ρ := { h2 with req := env.finishPipelineStage h2.req }
      let r := downH env es h3 res
      (r.1, [Event.startPipelineStage t, Event.FilterResponse t, Event.finishPipelineStage] ++ r.2)
    | none => (h, [])

/-- Go `Pipeline.execFilter` (pipeline.go:78-85) on a filter that is not a `*Pipeline`, as a
transformer of the heap. -/
def execLeafH {σ ρ : Type} (env : Env σ ρ) (typeName : String) (f : σ → σ × Option ρ)
    (h : Heap σ ρ) : Ran σ ρ :=
  let h1 : Heap σ ρ := { h with req := env.startPipelineStage typeName h.req }
  let r := f h1.req
  let h2 : Heap σ ρ := { h1 with req := r.1 }
  ⟨{ h2 with req := env.finishPipelineStage h2.req },
    [Event.startPipelineStage typeName, Event.FilterRequest typeName,
      Event.finishPipelineStage], r.2⟩

/-- Go `Pipeline.execFilter` (pipeline.go:78-85); the call `filter.FilterRequest(req)` on a
`*Pipeline` is `exec` on that pointer. -/
def execFilterH {σ ρ : Type} (env : Env σ ρ) (exec : Nat → Heap σ ρ → Option (Ran σ ρ)) :
    FilterRef σ ρ → Heap σ ρ → Option (Ran σ ρ)
  | .pipeline ptr, h => exec ptr h
  | .leaf typeName f, h => some (execLeafH env typeName f h)

/-- The type switch on one upstream element (pipeline.go:46-66), as a transformer of the
heap. -/
def dispatchH {σ ρ : Type} (env : Env σ ρ) (exec : Nat → Heap σ ρ → Option (Ran σ ρ)) :
    Elem σ ρ → Heap σ ρ → Option (Ran σ ρ)
  | .router m SelectPipeline, h =>
    let h1 : Heap σ ρ := { h with req := env.startPipelineStage m.typeName h.req }
    let r := SelectPipeline h1.req
    let h2 : Heap σ ρ := { h1 with req := r.1 }
    let h3 : Heap σ ρ := { h2 with req := env.finishPipelineStage h2.req }
    match r.2 with
    | none =>
      some ⟨h3, [Event.startPipelineStage m.typeName, Event.SelectPipeline m.typeName,
        Event.finishPipelineStage], none⟩
    | some pipe =>
      (execFilterH env exec pipe h3).map
        (Ran.after [Event.startPipelineStage m.typeName, Event.SelectPipeline m.typeName,
          Event.finishPipelineStage])
  | .pipeline ptr, h => exec ptr h
  | .other m, h =>
    match m.FilterRequest with
    | some f => some (execLeafH env m.typeName f h)
    | none => some ⟨h, [Event.Printf m.text], none⟩

/-- The `for` loop of `execute` (pipeline.go:45-67) over the elements of `p.Upstream`, as a
transformer of the heap. -/
def upstreamH {σ ρ : Type} (env : Env σ ρ) (exec : Nat → Heap σ ρ → Option (Ran σ ρ)) :
    List (Elem σ ρ) → Heap σ ρ → Option (Ran σ ρ)
  | [], h => some ⟨h, [], none⟩
  | e :: es, h =>
    match dispatchH env exec e h with
    | none => none
    | some o =>
      match o.res with
      | some _ => some o
      | none => (upstreamH env exec es o.heap).map (Ran.after o.trace)

/-- Lines 69-72 of `execute`, as a transformer of the heap. -/
def orDefaultH {σ ρ : Type} (env : Env σ ρ) (u : Ran σ ρ) : Heap σ ρ × ρ :=
  match u.res with
  | some r => (u.heap, r)
  | none =>
    ({ u.heap with req := (env.SimpleResponse u.heap.req 404 [] "Not found\n").1 },
      (env.SimpleResponse u.heap.req 404 [] "Not found\n").2)

/-- Go `Pipeline.execute` (pipeline.go:44-76) on the receiver `ptr`, with at most `n` calls of
`execute` on the stack: `p.Upstream` is read from the heap when the loop starts and
`p.Downstream` when `p.down` is called; `none` when the depth is used up or the receiver is
not a pipeline in the heap. -/
def executeH {σ ρ : Type} (env : Env σ ρ) : Nat → Nat → Heap σ ρ → Option (Ran σ ρ)
  | 0, _, _ => none
  | n + 1, ptr, h =>
    match h.pipelines[ptr]? with
    | none => none
    | some p =>
      match upstreamH env (executeH env n) p.Upstream h with
      | none => none
      | some u =>
        match (orDefaultH env u).1.pipelines[ptr]? with
        | none => none
        | some p2 =>
          some ⟨(downH env p2.Downstream (orDefaultH env u).1 (orDefaultH env u).2).1,
            u.trace ++ (downH env p2.Downstream (orDefaultH env u).1 (orDefaultH env u).2).2,
            some (orDefaultH env u).2⟩

/-- A heap with two pipelines: pipeline 0 holds a filter answering nil and a router that
selects pipeline 1, has a downstream filter and a callback; pipeline 1 holds a filter that
answers and a downstream filter. -/
def exampleHeap : Heap World Nat where
  pipelines :=
    [⟨[.other ⟨"FilterA", "&FilterA", some (fun w => (w, none)), none⟩,
        .router ⟨"PtrRouter", "&PtrRouter", none, none⟩ (fun w => (w, some (.pipeline 1)))],
      [.other ⟨"AppendOuter", "&AppendOuter", none,
        some (fun w res => ⟨List.modify (fun r => ⟨r.StatusCode, r.Header ++ [("X-Outer", "1")],
          r.Body⟩) res w.responses, w.stages⟩)⟩],
      some (.leaf "SpyCallback" selfFilterRequest)⟩,
     ⟨[.other ⟨"FilterB", "&FilterB",
        some (fun w => ((w.alloc ⟨200, [], "ok"⟩).1, some (w.alloc ⟨200, [], "ok"⟩).2)), none⟩],
      [.other ⟨"AppendInner", "&AppendInner", none,
        some (fun w res => ⟨List.modify (fun r => ⟨r.StatusCode, r.Header ++ [("X-Inner", "1")],
          r.Body⟩) res w.responses, w.stages⟩)⟩],
      none⟩]
  req := World.empty

/-! ## Lemmas about the loops -/

theorem execute_eq {σ ρ : Type} (env : Env σ ρ) (p : Pipeline σ ρ) (req : σ) :
    execute env p req =
      ⟨(down env p.Downstream (handedDown env p req).1 (handedDown env p req).2).1,
        (upstream env p.Upstream req).trace ++
          (down env p.Downstream (handedDown env p req).1 (handedDown env p req).2).2,
        some (handedDown env p req).2⟩ := by
  cases p with
  | mk u d c => simp [execute, handedDown, Pipeline.Upstream, Pipeline.Downstream]

theorem upstream_cons_some {σ ρ : Type} (env : Env σ ρ) (e : Value σ ρ) (es : List (Value σ ρ))
    (req : σ) (r : ρ) (h : (dispatch env e req).res = some r) :
    upstream env (e :: es) req = dispatch env e req := by
  simp [upstream, h]

theorem upstream_cons_none {σ ρ : Type} (env : Env σ ρ) (e : Value σ ρ) (es : List (Value σ ρ))
    (req : σ) (h : (dispatch env e req).res = none) :
    upstream env (e :: es) req =
      (upstream env es (dispatch env e req).req).after (dispatch env e req).trace := by
  simp [upstream, h]

theorem upstream_append {σ ρ : Type} (env : Env σ ρ) (pre rest : List (Value σ ρ)) (req : σ)
    (h : noResponse env pre req) :
    upstream env (pre ++ rest) req =
      (upstream env rest (dispatchEach env pre req).1).after (dispatchEach env pre req).2 := by
  induction pre generalizing req with
  | nil => simp [dispatchEach, Out.after]
  | cons e es ih =>
    obtain ⟨h1, h2⟩ := h
    rw [List.cons_append, upstream_cons_none env e _ req h1, ih _ h2]
    simp [dispatchEach, Out.after]

theorem handedDown_of_some {σ ρ : Type} (env : Env σ ρ) (p : Pipeline σ ρ) (req : σ) (r : ρ)
    (h : (upstream env p.Upstream req).res = some r) :
    handedDown env p req = ((upstream env p.Upstream req).req, r) := by
  simp [handedDown, orDefault, h]

theorem handedDown_of_none {σ ρ : Type} (env : Env σ ρ) (p : Pipeline σ ρ) (req : σ)
    (h : (upstream env p.Upstream req).res = none) :
    handedDown env p req =
      env.SimpleResponse (upstream env p.Upstream req).req 404 [] "Not found\n" := by
  simp [handedDown, orDefault, h]

theorem upstream_of_noResponse {σ ρ : Type} (env : Env σ ρ) (es : List (Value σ ρ)) (req : σ)
    (h : noResponse env es req) :
    upstream env es req = ⟨(dispatchEach env es req).1, (dispatchEach env es req).2, none⟩ := by
  have := upstream_append env es [] req h
  simpa [upstream, Out.after] using this

theorem upstream_stops {σ ρ : Type} (env : Env σ ρ) (pre post : List (Value σ ρ))
    (e : Value σ ρ) (req : σ) (r : ρ) (hpre : noResponse env pre req)
    (he : (dispatch env e (dispatchEach env pre req).1).res = some r) :
    upstream env (pre ++ e :: post) req =
      ⟨(dispatch env e (dispatchEach env pre req).1).req,
        (dispatchEach env pre req).2 ++ (dispatch env e (dispatchEach env pre req).1).trace,
        some r⟩ := by
  rw [upstream_append env pre _ req hpre, upstream_cons_some env e post _ r he]
  simp [Out.after, ← he]

theorem down_cons_some {σ ρ : Type} (env : Env σ ρ) (e : Value σ ρ) (es : List (Value σ ρ))
    (req : σ) (res : ρ) (t : String) (g : σ → ρ → σ) (h : e.asResponseFilter = some (t, g)) :
    down env (e :: es) req res =
      ((down env es (env.finishPipelineStage (g (env.startPipelineStage t req) res)) res).1,
        responseStage t ++
          (down env es (env.finishPipelineStage (g (env.startPipelineStage t req) res)) res).2) := by
  simp [down, h, responseStage]

theorem down_cons_none {σ ρ : Type} (env : Env σ ρ) (e : Value σ ρ) (es : List (Value σ ρ))
    (req : σ) (res : ρ) (h : e.asResponseFilter = none) :
    down env (e :: es) req res = (req, []) := by
  simp [down, h]

theorem down_eq_applyEach {σ ρ : Type} (env : Env σ ρ) (ds : List (Value σ ρ)) (req : σ)
    (res : ρ) : down env ds req res = applyEach env (leadingResponseFilters ds) req res := by
  induction ds generalizing req with
  | nil => simp [down, applyEach, leadingResponseFilters]
  | cons e es ih =>
    cases h : e.asResponseFilter with
    | none =>
      rw [down_cons_none env e es req res h]
      simp [applyEach, leadingResponseFilters, List.takeWhile_cons, h]
    | some f =>
      obtain ⟨t, g⟩ := f
      rw [down_cons_some env e es req res t g h, ih]
      simp [applyEach, leadingResponseFilters, List.takeWhile_cons, h, List.filterMap_cons]

theorem leadingResponseFilters_of_all {σ ρ : Type} (ds : List (Value σ ρ))
    (h : ∀ e ∈ ds, e.asResponseFilter.isSome = true) :
    leadingResponseFilters ds = ds.filterMap Value.asResponseFilter := by
  unfold leadingResponseFilters
  rw [List.takeWhile_eq_self_iff.mpr]
  simpa using h

theorem leadingResponseFilters_stop {σ ρ : Type} (pre post : List (Value σ ρ))
    (bad : Value σ ρ) (hpre : ∀ e ∈ pre, e.asResponseFilter.isSome = true)
    (hbad : bad.asResponseFilter = none) :
    leadingResponseFilters (pre ++ bad :: post) = pre.filterMap Value.asResponseFilter := by
  induction pre with
  | nil => simp [leadingResponseFilters, List.takeWhile_cons, hbad]
  | cons e es ih =>
    have he : e.asResponseFilter.isSome = true := hpre e (List.mem_cons_self _ _)
    have ih2 := ih (fun x hx => hpre x (List.mem_cons_of_mem _ hx))
    unfold leadingResponseFilters at ih2 ⊢
    simp only [List.cons_append, List.takeWhile_cons, he, if_true, List.filterMap_cons]
    rw [ih2]

theorem filterMap_map_some_of_all {σ ρ : Type} (ds : List (Value σ ρ))
    (h : ∀ e ∈ ds, e.asResponseFilter.isSome = true) :
    (ds.filterMap Value.asResponseFilter).map some = ds.map Value.asResponseFilter := by
  induction ds with
  | nil => rfl
  | cons e es ih =>
    have he : e.asResponseFilter.isSome = true := h e (List.mem_cons_self _ _)
    obtain ⟨f, hf⟩ := Option.isSome_iff_exists.mp he
    simp [List.filterMap_cons, hf, ih (fun x hx => h x (List.mem_cons_of_mem _ hx))]

theorem dispatch_pipeline {σ ρ : Type} (env : Env σ ρ) (q : Pipeline σ ρ) (w : σ) :
    dispatch env (.pipeline q) w = execute env q w := by
  simp [dispatch]

theorem dispatch_router_none {σ ρ : Type} (env : Env σ ρ) (m : Methods σ ρ)
    (sel : σ → σ × Option (RequestFilter σ ρ)) (w w' : σ)
    (h : sel (env.startPipelineStage m.typeName w) = (w', none)) :
    dispatch env (.router m sel) w =
      ⟨env.finishPipelineStage w',
        [Event.startPipelineStage m.typeName, Event.SelectPipeline m.typeName,
          Event.finishPipelineStage], none⟩ := by
  simp [dispatch, h, selected, Out.after]

theorem dispatch_router_pipeline {σ ρ : Type} (env : Env σ ρ) (m : Methods σ ρ)
    (sel : σ → σ × Option (RequestFilter σ ρ)) (w w' : σ) (q : Pipeline σ ρ)
    (h : sel (env.startPipelineStage m.typeName w) = (w', some (.pipeline q))) :
    dispatch env (.router m sel) w =
      (execute env q (env.finishPipelineStage w')).after
        [Event.startPipelineStage m.typeName, Event.SelectPipeline m.typeName,
          Event.finishPipelineStage] := by
  simp [dispatch, h, selected, execFilter, Out.after]

theorem dispatch_unrecognized {σ ρ : Type} (env : Env σ ρ) (e : Value σ ρ) (w : σ)
    (h : e.unrecognized = true) :
    (dispatch env e w).req = w ∧ (dispatch env e w).res = none ∧
      (dispatch env e w).trace.filter (fun ev => !ev.isPrintf) = [] := by
  cases e with
  | pipeline q => simp [Value.unrecognized] at h
  | router m sel => simp [Value.unrecognized] at h
  | other m =>
    cases hf : m.FilterRequest with
    | none => simp [dispatch, hf, Event.isPrintf]
    | some f => simp [Value.unrecognized, hf] at h

theorem execute_res {σ ρ : Type} (env : Env σ ρ) (q : Pipeline σ ρ) (w : σ) :
    (execute env q w).res = some (handedDown env q w).2 := by
  rw [execute_eq]

theorem upstream_reaches {σ ρ : Type} (env : Env σ ρ) (pre post : List (Value σ ρ))
    (e : Value σ ρ) (req : σ) (hpre : noResponse env pre req)
    (he : (dispatch env e (dispatchEach env pre req).1).res.isSome = true) :
    upstream env (pre ++ e :: post) req =
      (dispatch env e (dispatchEach env pre req).1).after (dispatchEach env pre req).2 := by
  obtain ⟨r, hr⟩ := Option.isSome_iff_exists.mp he
  rw [upstream_stops env pre post e req r hpre hr]
  simp [Out.after, ← hr]

theorem upstream_filter_unrecognized {σ ρ : Type} (env : Env σ ρ) (es : List (Value σ ρ))
    (req : σ) :
    (upstream env es req).req = (upstream env (es.filter (fun e => !e.unrecognized)) req).req ∧
      (upstream env es req).res =
        (upstream env (es.filter (fun e => !e.unrecognized)) req).res ∧
      (upstream env es req).trace.filter (fun ev => !ev.isPrintf) =
        (upstream env (es.filter (fun e => !e.unrecognized)) req).trace.filter
          (fun ev => !ev.isPrintf) := by
  induction es generalizing req with
  | nil => simp
  | cons e es ih =>
    cases hu : e.unrecognized with
    | true =>
      obtain ⟨h1, h2, h3⟩ := dispatch_unrecognized env e req hu
      obtain ⟨i1, i2, i3⟩ := ih req
      rw [upstream_cons_none env e es req h2, h1]
      simp only [List.filter_cons, hu, Bool.not_true, Bool.false_eq_true, if_false]
      refine ⟨?_, ?_, ?_⟩
      · simpa [Out.after] using i1
      · simpa [Out.after] using i2
      · simp only [Out.after, List.filter_append, h3, List.nil_append]
        exact i3
    | false =>
      simp only [List.filter_cons, hu, Bool.not_false, if_true]
      cases hr : (dispatch env e req).res with
      | some r =>
        rw [upstream_cons_some env e _ req r hr, upstream_cons_some env e _ req r hr]
        exact ⟨rfl, rfl, rfl⟩
      | none =>
        obtain ⟨i1, i2, i3⟩ := ih (dispatch env e req).req
        rw [upstream_cons_none env e _ req hr, upstream_cons_none env e _ req hr]
        refine ⟨?_, ?_, ?_⟩
        · simpa [Out.after] using i1
        · simpa [Out.after] using i2
        · simp only [Out.after, List.filter_append, i3]

/-! ## The claims -/

/-- C1: when the upstream list is `pre ++ e :: post`, no element of `pre` yields a response
and the dispatch of `e` yields the non-nil response `r`, the upstream loop has dispatched
every element of `pre` exactly once, in list order, then `e`, and nothing of `post` (the
outcome does not mention `post`); `r` is the response handed to `p.down`, and `execute`
returns it after that one downstream run. -/
theorem C1_upstream_stops_at_first_response {σ ρ : Type} (env : Env σ ρ) (p : Pipeline σ ρ)
    (req : σ) (pre post : List (Value σ ρ)) (e : Value σ ρ) (r : ρ)
    (hup : p.Upstream = pre ++ e :: post)
    (hpre : noResponse env pre req)
    (he : (dispatch env e (dispatchEach env pre req).1).res = some r) :
    upstream env p.Upstream req =
        ⟨(dispatch env e (dispatchEach env pre req).1).req,
          (dispatchEach env pre req).2 ++ (dispatch env e (dispatchEach env pre req).1).trace,
          some r⟩ ∧
      handedDown env p req = ((dispatch env e (dispatchEach env pre req).1).req, r) ∧
      execute env p req =
        ⟨(down env p.Downstream (dispatch env e (dispatchEach env pre req).1).req r).1,
          (dispatchEach env pre req).2 ++ (dispatch env e (dispatchEach env pre req).1).trace ++
            (down env p.Downstream (dispatch env e (dispatchEach env pre req).1).req r).2,
          some r⟩ := by
  have hu := upstream_stops env pre post e req r hpre he
  rw [← hup] at hu
  have hd : handedDown env p req = ((dispatch env e (dispatchEach env pre req).1).req, r) := by
    rw [handedDown_of_some env p req r (by rw [hu])]
    rw [hu]
  refine ⟨hu, hd, ?_⟩
  rw [execute_eq, hd, hu]

/-- C1, on a pipeline with upstream `[Junk, FilterA, FilterB, Spy]`: `FilterB` answers, the
spy after it is never invoked. -/
theorem C1_upstream_stops_at_first_response_witness :
    noResponse worldEnv [Junk, FilterA] World.empty ∧
      execute worldEnv (.mk [Junk, FilterA, FilterB, Spy] [] none) World.empty =
        ⟨⟨[⟨200, [], "ok"⟩], []⟩,
          [Event.Printf "42",
            Event.startPipelineStage "FilterA", Event.FilterRequest "FilterA",
            Event.finishPipelineStage,
            Event.startPipelineStage "FilterB", Event.FilterRequest "FilterB",
            Event.finishPipelineStage],
          some 0⟩ :=
  ⟨⟨rfl, rfl, trivial⟩,
    (C1_upstream_stops_at_first_response worldEnv (.mk [Junk, FilterA, FilterB, Spy] [] none)
      World.empty [Junk, FilterA] [Spy] FilterB 0 rfl ⟨rfl, rfl, trivial⟩ rfl).2.2.trans rfl⟩

/-- C2: when no upstream element yields a response (in particular when the upstream list is
empty), every element has been dispatched once, and the response handed to `p.down` is what
`SimpleResponse(req.HttpRequest, 404, nil, "Not found\n")` returns; `execute` returns that
response after the downstream run. -/
theorem C2_default_response_is_404 {σ ρ : Type} (env : Env σ ρ) (p : Pipeline σ ρ) (req : σ)
    (h : noResponse env p.Upstream req) :
    upstream env p.Upstream req =
        ⟨(dispatchEach env p.Upstream req).1, (dispatchEach env p.Upstream req).2, none⟩ ∧
      handedDown env p req =
        env.SimpleResponse (dispatchEach env p.Upstream req).1 404 [] "Not found\n" ∧
      execute env p req =
        ⟨(down env p.Downstream
            (env.SimpleResponse (dispatchEach env p.Upstream req).1 404 [] "Not found\n").1
            (env.SimpleResponse (dispatchEach env p.Upstream req).1 404 [] "Not found\n").2).1,
          (dispatchEach env p.Upstream req).2 ++
            (down env p.Downstream
              (env.SimpleResponse (dispatchEach env p.Upstream req).1 404 [] "Not found\n").1
              (env.SimpleResponse (dispatchEach env p.Upstream req).1 404 [] "Not found\n").2).2,
          some (env.SimpleResponse (dispatchEach env p.Upstream req).1 404 [] "Not found\n").2⟩ := by
  have hu := upstream_of_noResponse env p.Upstream req h
  have hd : handedDown env p req =
      env.SimpleResponse (dispatchEach env p.Upstream req).1 404 [] "Not found\n" := by
    rw [handedDown_of_none env p req (by rw [hu]), hu]
  refine ⟨hu, hd, ?_⟩
  rw [execute_eq, hd, hu]

/-- C2, on a pipeline with upstream `[Junk, FilterA, NilRouter]` and no downstream: the
response handed down, and returned, is the 404 response with no headers and body
"Not found\n". -/
theorem C2_default_response_is_404_witness :
    noResponse worldEnv [Junk, FilterA, NilRouter] World.empty ∧
      handedDown worldEnv (.mk [Junk, FilterA, NilRouter] [] none) World.empty =
        (⟨[⟨404, [], "Not found\n"⟩], []⟩, 0) ∧
      (execute worldEnv (.mk [Junk, FilterA, NilRouter] [] none) World.empty).res = some 0 ∧
      (execute worldEnv (.mk [Junk, FilterA, NilRouter] [] none) World.empty).req.responses =
        [⟨404, [], "Not found\n"⟩] :=
  ⟨⟨rfl, rfl, rfl, trivial⟩,
    (C2_default_response_is_404 worldEnv (.mk [Junk, FilterA, NilRouter] [] none) World.empty
      ⟨rfl, rfl, rfl, trivial⟩).2.1.trans rfl,
    rfl, rfl⟩

/-- C3: `FilterRequest` (which is `execute`) returns a non-nil response, and that response is
the one the upstream loop ended with or, when the loop ended with nil, the one returned by
the default-response builder; the returned outcome has no error component. -/
theorem C3_exactly_one_response {σ ρ : Type} (env : Env σ ρ) (p : Pipeline σ ρ) (req : σ) :
    ∃ r : ρ, (FilterRequest env p req).res = some r ∧
      ((upstream env p.Upstream req).res = some r ∨
        ((upstream env p.Upstream req).res = none ∧
          r = (env.SimpleResponse (upstream env p.Upstream req).req 404 [] "Not found\n").2)) := by
  refine ⟨(handedDown env p req).2, ?_, ?_⟩
  · rw [FilterRequest, execute_eq]
  · cases h : (upstream env p.Upstream req).res with
    | none => right; exact ⟨rfl, by rw [handedDown_of_none env p req h]⟩
    | some r => left; rw [handedDown_of_some env p req r h]

/-- C4: when every downstream element is a response filter, `down` applies every one of
them exactly once, in list order (the filters applied are, position by position, the
elements of the list), and `execute` makes that one downstream run after the upstream loop,
on the response handed down, be it the one of an upstream element or the default one. -/
theorem C4_downstream_each_once_in_order {σ ρ : Type} (env : Env σ ρ) (p : Pipeline σ ρ)
    (req : σ) (hall : ∀ e ∈ p.Downstream, e.asResponseFilter.isSome = true) :
    (p.Downstream.filterMap Value.asResponseFilter).map some =
        p.Downstream.map Value.asResponseFilter ∧
      (∀ (w : σ) (res : ρ), down env p.Downstream w res =
        applyEach env (p.Downstream.filterMap Value.asResponseFilter) w res) ∧
      execute env p req =
        ⟨(applyEach env (p.Downstream.filterMap Value.asResponseFilter)
            (handedDown env p req).1 (handedDown env p req).2).1,
          (upstream env p.Upstream req).trace ++
            (p.Downstream.filterMap Value.asResponseFilter).flatMap
              (fun f => responseStage f.1),
          some (handedDown env p req).2⟩ := by
  have hd : ∀ (w : σ) (res : ρ), down env p.Downstream w res =
      applyEach env (p.Downstream.filterMap Value.asResponseFilter) w res := by
    intro w res
    rw [down_eq_applyEach, leadingResponseFilters_of_all _ hall]
  refine ⟨filterMap_map_some_of_all _ hall, hd, ?_⟩
  rw [execute_eq, hd]
  rfl

/-- C4, with two downstream filters: after a response of `FilterB`, and after the default
response, both filters run once, in order. -/
theorem C4_downstream_each_once_in_order_witness :
    execute worldEnv
        (.mk [FilterB] [AppendHeaderFilter "X-A" "1", AppendHeaderFilter "X-B" "2"] none)
        World.empty =
      ⟨⟨[⟨200, [("X-A", "1"), ("X-B", "2")], "ok"⟩], []⟩,
        [Event.startPipelineStage "FilterB", Event.FilterRequest "FilterB",
          Event.finishPipelineStage,
          Event.startPipelineStage "AppendHeaderFilter",
          Event.FilterResponse "AppendHeaderFilter", Event.finishPipelineStage,
          Event.startPipelineStage "AppendHeaderFilter",
          Event.FilterResponse "AppendHeaderFilter", Event.finishPipelineStage],
        some 0⟩ ∧
      (execute worldEnv
        (.mk [] [AppendHeaderFilter "X-A" "1", AppendHeaderFilter "X-B" "2"] none)
        World.empty).req.responses = [⟨404, [("X-A", "1"), ("X-B", "2")], "Not found\n"⟩] :=
  ⟨(C4_downstream_each_once_in_order worldEnv
      (.mk [FilterB] [AppendHeaderFilter "X-A" "1", AppendHeaderFilter "X-B" "2"] none)
      World.empty (by decide)).2.2.trans rfl,
    rfl⟩

/-- C5: in a downstream list `pre ++ bad :: post` where every element of `pre` is a response
filter and `bad` (at position `k = pre.length`) is not, `down` applies the filters of `pre`
exactly once each, in order, and nothing else: the outcome is the one of `down` on `pre`
alone, whatever `post` holds. -/
theorem C5_non_response_filter_stops_downstream {σ ρ : Type} (env : Env σ ρ)
    (pre post : List (Value σ ρ)) (bad : Value σ ρ) (req : σ) (res : ρ)
    (hpre : ∀ e ∈ pre, e.asResponseFilter.isSome = true)
    (hbad : bad.asResponseFilter = none) :
    down env (pre ++ bad :: post) req res =
        applyEach env (pre.filterMap Value.asResponseFilter) req res ∧
      (pre.filterMap Value.asResponseFilter).map some = pre.map Value.asResponseFilter ∧
      down env (pre ++ bad :: post) req res = down env pre req res := by
  have h1 : down env (pre ++ bad :: post) req res =
      applyEach env (pre.filterMap Value.asResponseFilter) req res := by
    rw [down_eq_applyEach, leadingResponseFilters_stop pre post bad hpre hbad]
  refine ⟨h1, filterMap_map_some_of_all _ hpre, ?_⟩
  rw [h1, down_eq_applyEach, leadingResponseFilters_of_all _ hpre]

/-- C5, with downstream `[AppendHeaderFilter X-A, FilterA, AppendHeaderFilter X-B]`, where
`FilterA` is a request filter only: the first filter runs, the third does not. -/
theorem C5_non_response_filter_stops_downstream_witness :
    down worldEnv
        ([AppendHeaderFilter "X-A" "1"] ++ FilterA :: [AppendHeaderFilter "X-B" "2"])
        ⟨[⟨200, [], "ok"⟩], []⟩ 0 =
      (⟨[⟨200, [("X-A", "1")], "ok"⟩], []⟩,
        [Event.startPipelineStage "AppendHeaderFilter",
          Event.FilterResponse "AppendHeaderFilter", Event.finishPipelineStage]) :=
  (C5_non_response_filter_stops_downstream worldEnv [AppendHeaderFilter "X-A" "1"]
    [AppendHeaderFilter "X-B" "2"] FilterA ⟨[⟨200, [], "ok"⟩], []⟩ 0 (by decide) rfl).1.trans rfl

/-- C6: when the upstream list is `pre ++ e :: post`, no element of `pre` yields a response
(so `e` is reached), and `e` is a nested `*Pipeline`, or a router whose `SelectPipeline`
returns a non-nil `*Pipeline`, the dispatch of `e` yields a non-nil response and the loop
ends there: its outcome is the one of `e` after the calls of `pre`, the same as for the list
cut after `e`, whatever `post` holds and wherever the nested response came from. -/
theorem C6_nested_pipeline_ends_outer_iteration {σ ρ : Type} (env : Env σ ρ)
    (p q : Pipeline σ ρ) (req : σ) (pre post : List (Value σ ρ)) (e : Value σ ρ)
    (hup : p.Upstream = pre ++ e :: post)
    (hpre : noResponse env pre req)
    (hnest : e = .pipeline q ∨ ∃ m sel w', e = .router m sel ∧
      sel (env.startPipelineStage m.typeName (dispatchEach env pre req).1) =
        (w', some (.pipeline q))) :
    (dispatch env e (dispatchEach env pre req).1).res.isSome = true ∧
      upstream env p.Upstream req =
        (dispatch env e (dispatchEach env pre req).1).after (dispatchEach env pre req).2 ∧
      upstream env p.Upstream req = upstream env (pre ++ [e]) req := by
  have he : (dispatch env e (dispatchEach env pre req).1).res.isSome = true := by
    rcases hnest with h | ⟨m, sel, w', h, hsel⟩
    · rw [h, dispatch_pipeline, execute_res]; rfl
    · rw [h, dispatch_router_pipeline env m sel _ w' q hsel]
      simp [Out.after, execute_res]
  refine ⟨he, ?_, ?_⟩
  · rw [hup, upstream_reaches env pre post e req hpre he]
  · rw [hup, upstream_reaches env pre post e req hpre he,
      upstream_reaches env pre [] e req hpre he]

/-- C6, with an empty nested pipeline (whose result is its own default 404) followed by a
spy, as an entry and behind a router: the spy is not invoked. -/
theorem C6_nested_pipeline_ends_outer_iteration_witness :
    upstream worldEnv [FilterA, .pipeline NewPipeline, Spy] World.empty =
        ⟨⟨[⟨404, [], "Not found\n"⟩], []⟩,
          [Event.startPipelineStage "FilterA", Event.FilterRequest "FilterA",
            Event.finishPipelineStage], some 0⟩ ∧
      upstream worldEnv [ConstRouter NewPipeline, Spy] World.empty =
        ⟨⟨[⟨404, [], "Not found\n"⟩], []⟩,
          [Event.startPipelineStage "ConstRouter", Event.SelectPipeline "ConstRouter",
            Event.finishPipelineStage], some 0⟩ :=
  ⟨(C6_nested_pipeline_ends_outer_iteration worldEnv
      (.mk [FilterA, .pipeline NewPipeline, Spy] [] none) NewPipeline World.empty
      [FilterA] [Spy] (.pipeline NewPipeline) rfl ⟨rfl, trivial⟩ (Or.inl rfl)).2.1.trans rfl,
    (C6_nested_pipeline_ends_outer_iteration worldEnv
      (.mk [ConstRouter NewPipeline, Spy] [] none) NewPipeline World.empty
      [] [Spy] (ConstRouter NewPipeline) rfl trivial
      (Or.inr ⟨_, _, _, rfl, rfl⟩)).2.1.trans rfl⟩

/-- C7: `execute` returns the very response that was handed down (the one of an upstream
element, or the default one), in the world obtained by applying to it, in list order, each in
the world left by the one before, the response filters the downstream loop reaches (all of
them when the list holds only response filters); and with upstream `[FilterA, FilterB]` and
downstream `[AppendHeaderFilter("X-Test", "1")]` the result is a response with status 200,
body "ok" and header X-Test=1, `FilterA` and `FilterB` having been invoked once each. -/
theorem C7_returns_response_after_downstream {σ ρ : Type} (env : Env σ ρ) (p : Pipeline σ ρ)
    (req : σ) :
    (execute env p req =
        ⟨(applyEach env (leadingResponseFilters p.Downstream)
            (handedDown env p req).1 (handedDown env p req).2).1,
          (upstream env p.Upstream req).trace ++
            (applyEach env (leadingResponseFilters p.Downstream)
              (handedDown env p req).1 (handedDown env p req).2).2,
          some (handedDown env p req).2⟩) ∧
      execute worldEnv (.mk [FilterA, FilterB] [AppendHeaderFilter "X-Test" "1"] none)
          World.empty =
        ⟨⟨[⟨200, [("X-Test", "1")], "ok"⟩], []⟩,
          [Event.startPipelineStage "FilterA", Event.FilterRequest "FilterA",
            Event.finishPipelineStage,
            Event.startPipelineStage "FilterB", Event.FilterRequest "FilterB",
            Event.finishPipelineStage,
            Event.startPipelineStage "AppendHeaderFilter",
            Event.FilterResponse "AppendHeaderFilter", Event.finishPipelineStage],
          some 0⟩ := by
  refine ⟨?_, rfl⟩
  rw [execute_eq, down_eq_applyEach]

/-- C8: an upstream value that is neither a `Router` nor a `RequestFilter` only produces the
log line: its dispatch leaves the world as it was and yields nil, so the loop goes on; and
`execute` on a pipeline gives the same response, the same world and, the log lines apart, the
same calls in the same order as on the pipeline whose upstream list has all such values
removed. -/
theorem C8_unrecognized_upstream_skipped {σ ρ : Type} (env : Env σ ρ) (p : Pipeline σ ρ)
    (req : σ) :
    (∀ (typeName text : String) (g : Option (σ → ρ → σ)) (w : σ) (es : List (Value σ ρ)),
        dispatch env (.other ⟨typeName, text, none, g⟩) w = ⟨w, [Event.Printf text], none⟩ ∧
        upstream env (.other ⟨typeName, text, none, g⟩ :: es) w =
          (upstream env es w).after [Event.Printf text]) ∧
      (execute env p req).res =
        (execute env (.mk (p.Upstream.filter (fun e => !e.unrecognized)) p.Downstream
          p.RequestDoneCallback) req).res ∧
      (execute env p req).req =
        (execute env (.mk (p.Upstream.filter (fun e => !e.unrecognized)) p.Downstream
          p.RequestDoneCallback) req).req ∧
      (execute env p req).trace.filter (fun ev => !ev.isPrintf) =
        (execute env (.mk (p.Upstream.filter (fun e => !e.unrecognized)) p.Downstream
          p.RequestDoneCallback) req).trace.filter (fun ev => !ev.isPrintf) := by
  obtain ⟨h1, h2, h3⟩ := upstream_filter_unrecognized env p.Upstream req
  have hd : handedDown env p req =
      handedDown env (.mk (p.Upstream.filter (fun e => !e.unrecognized)) p.Downstream
        p.RequestDoneCallback) req := by
    unfold handedDown orDefault
    rw [show (Pipeline.mk (p.Upstream.filter (fun e => !e.unrecognized)) p.Downstream
      p.RequestDoneCallback).Upstream = p.Upstream.filter (fun e => !e.unrecognized) from rfl,
      ← h1, ← h2]
  refine ⟨?_, ?_, ?_, ?_⟩
  · intro typeName text g w es
    have hdis : dispatch env (.other ⟨typeName, text, none, g⟩) w =
        ⟨w, [Event.Printf text], none⟩ := by simp [dispatch]
    refine ⟨hdis, ?_⟩
    rw [upstream_cons_none env _ es w (by rw [hdis]), hdis]
  · rw [execute_res, execute_res, hd]
  · rw [execute_eq, execute_eq env (.mk _ _ _), ← hd]
    rfl
  · rw [execute_eq, execute_eq env (.mk _ _ _), ← hd]
    simp only [List.filter_append, h3]
    rfl

/-- C9: when the upstream list is `pre ++ router :: post`, the router is reached and its
`SelectPipeline` returns nil, the dispatch of the router consists of its stage around
`SelectPipeline` and nothing else (no `execFilter`), it yields nil, and the loop goes on with
`post` in the world the router left; when the router is the last element, the response handed
down is the default 404 one. -/
theorem C9_router_selecting_nil_continues {σ ρ : Type} (env : Env σ ρ) (p : Pipeline σ ρ)
    (req : σ) (pre post : List (Value σ ρ)) (m : Methods σ ρ)
    (sel : σ → σ × Option (RequestFilter σ ρ)) (w' : σ)
    (hup : p.Upstream = pre ++ .router m sel :: post)
    (hpre : noResponse env pre req)
    (hsel : sel (env.startPipelineStage m.typeName (dispatchEach env pre req).1) = (w', none)) :
    dispatch env (.router m sel) (dispatchEach env pre req).1 =
        ⟨env.finishPipelineStage w',
          [Event.startPipelineStage m.typeName, Event.SelectPipeline m.typeName,
            Event.finishPipelineStage], none⟩ ∧
      upstream env p.Upstream req =
        (upstream env post (env.finishPipelineStage w')).after
          ((dispatchEach env pre req).2 ++
            [Event.startPipelineStage m.typeName, Event.SelectPipeline m.typeName,
              Event.finishPipelineStage]) ∧
      handedDown env (.mk (pre ++ [.router m sel]) p.Downstream p.RequestDoneCallback) req =
        env.SimpleResponse (env.finishPipelineStage w') 404 [] "Not found\n" := by
  have hdis := dispatch_router_none env m sel _ w' hsel
  have hcont : ∀ rest : List (Value σ ρ), upstream env (pre ++ .router m sel :: rest) req =
      (upstream env rest (env.finishPipelineStage w')).after
        ((dispatchEach env pre req).2 ++
          [Event.startPipelineStage m.typeName, Event.SelectPipeline m.typeName,
            Event.finishPipelineStage]) := by
    intro rest
    rw [upstream_append env pre _ req hpre, upstream_cons_none env _ rest _ (by rw [hdis]), hdis]
    simp [Out.after]
  refine ⟨hdis, ?_, ?_⟩
  · rw [hup, hcont]
  · have hl := hcont []
    simp only [upstream, Out.after] at hl
    simp only [handedDown, orDefault, Pipeline.Upstream, hl]

/-- C9, with upstream `[FilterA, NilRouter, FilterB]`: after the router, `FilterB` runs and
answers. -/
theorem C9_router_selecting_nil_continues_witness :
    upstream worldEnv [FilterA, NilRouter, FilterB] World.empty =
        ⟨⟨[⟨200, [], "ok"⟩], []⟩,
          [Event.startPipelineStage "FilterA", Event.FilterRequest "FilterA",
            Event.finishPipelineStage,
            Event.startPipelineStage "NilRouter", Event.SelectPipeline "NilRouter",
            Event.finishPipelineStage,
            Event.startPipelineStage "FilterB", Event.FilterRequest "FilterB",
            Event.finishPipelineStage], some 0⟩ ∧
      handedDown worldEnv (.mk [FilterA, NilRouter] [] none) World.empty =
        (⟨[⟨404, [], "Not found\n"⟩], []⟩, 0) :=
  ⟨(C9_router_selecting_nil_continues worldEnv (.mk [FilterA, NilRouter, FilterB] [] none)
      World.empty [FilterA] [FilterB] ⟨"NilRouter", "&NilRouter", none, none⟩
      (fun w => (w, none)) ⟨[], ["NilRouter"]⟩ rfl ⟨rfl, trivial⟩ rfl).2.1.trans rfl,
    (C9_router_selecting_nil_continues worldEnv (.mk [FilterA, NilRouter, FilterB] [] none)
      World.empty [FilterA] [FilterB] ⟨"NilRouter", "&NilRouter", none, none⟩
      (fun w => (w, none)) ⟨[], ["NilRouter"]⟩ rfl ⟨rfl, trivial⟩ rfl).2.2.trans rfl⟩

/-- C10: when the upstream list of `p` is `pre ++ e :: post`, `e` is reached, and `e`
delegates to the pipeline `q` (it is `q` itself, run in the world `w1` left by `pre`, or a
router selecting `q`, run in the world `w1` left by the router stage, after the calls `evs`
of that stage), then the dispatch of `e` is the whole execution of `q`, the response handed
to the downstream loop of `p` is the one `q` returned, and the calls of `execute` on `p` are:
those of `pre`, `evs`, the upstream loop of `q`, the downstream loop of `q`, and last, once,
the downstream loop of `p`, run on the response `q` handed down, in the world the downstream
loop of `q` left.  `q` is any pipeline, nested as deep as it may be. -/
theorem C10_sub_pipeline_runs_inside_outer_upstream {σ ρ : Type} (env : Env σ ρ)
    (p q : Pipeline σ ρ) (req : σ) (pre post : List (Value σ ρ)) (e : Value σ ρ) (w1 : σ)
    (evs : List Event)
    (hup : p.Upstream = pre ++ e :: post)
    (hpre : noResponse env pre req)
    (hdel : (e = .pipeline q ∧ w1 = (dispatchEach env pre req).1 ∧ evs = []) ∨
      ∃ m sel w', e = .router m sel ∧
        sel (env.startPipelineStage m.typeName (dispatchEach env pre req).1) =
          (w', some (.pipeline q)) ∧
        w1 = env.finishPipelineStage w' ∧
        evs = [Event.startPipelineStage m.typeName, Event.SelectPipeline m.typeName,
          Event.finishPipelineStage]) :
    dispatch env e (dispatchEach env pre req).1 = (execute env q w1).after evs ∧
      handedDown env p req = ((execute env q w1).req, (handedDown env q w1).2) ∧
      (execute env q w1).req =
        (down env q.Downstream (handedDown env q w1).1 (handedDown env q w1).2).1 ∧
      execute env p req =
        ⟨(down env p.Downstream
            (down env q.Downstream (handedDown env q w1).1 (handedDown env q w1).2).1
            (handedDown env q w1).2).1,
          (dispatchEach env pre req).2 ++ evs ++ (upstream env q.Upstream w1).trace ++
            (down env q.Downstream (handedDown env q w1).1 (handedDown env q w1).2).2 ++
            (down env p.Downstream
              (down env q.Downstream (handedDown env q w1).1 (handedDown env q w1).2).1
              (handedDown env q w1).2).2,
          some (handedDown env q w1).2⟩ := by
  have hdis : dispatch env e (dispatchEach env pre req).1 = (execute env q w1).after evs := by
    rcases hdel with ⟨h, hw, hev⟩ | ⟨m, sel, w', h, hsel, hw, hev⟩
    · rw [h, hw, hev, dispatch_pipeline]; rfl
    · rw [h, hw, hev, dispatch_router_pipeline env m sel _ w' q hsel]
  have hres : (dispatch env e (dispatchEach env pre req).1).res = some (handedDown env q w1).2 := by
    rw [hdis]
    simp [Out.after, execute_res]
  have hu := upstream_stops env pre post e req _ hpre hres
  rw [← hup] at hu
  have hd : handedDown env p req = ((execute env q w1).req, (handedDown env q w1).2) := by
    rw [handedDown_of_some env p req _ (by rw [hu]), hu, hdis]
    rfl
  have hq : (execute env q w1).req =
      (down env q.Downstream (handedDown env q w1).1 (handedDown env q w1).2).1 := by
    rw [execute_eq]
  refine ⟨hdis, hd, hq, ?_⟩
  rw [execute_eq env p, hd, hu, hdis, hq]
  simp only [Out.after, execute_eq env q, List.append_assoc]

/-- C10, three pipelines deep: a router of the outer pipeline selects a pipeline whose only
upstream entry is a pipeline holding `FilterB`; the headers are appended innermost first and
the outer downstream filter runs once, last. -/
theorem C10_sub_pipeline_runs_inside_outer_upstream_witness :
    execute worldEnv
        (.mk [FilterA, ConstRouter (.mk [.pipeline (.mk [FilterB]
          [AppendHeaderFilter "X-Depth" "3"] none)] [AppendHeaderFilter "X-Depth" "2"] none),
          Spy] [AppendHeaderFilter "X-Depth" "1"] none)
        World.empty =
      ⟨⟨[⟨200, [("X-Depth", "3"), ("X-Depth", "2"), ("X-Depth", "1")], "ok"⟩], []⟩,
        [Event.startPipelineStage "FilterA", Event.FilterRequest "FilterA",
          Event.finishPipelineStage,
          Event.startPipelineStage "ConstRouter", Event.SelectPipeline "ConstRouter",
          Event.finishPipelineStage,
          Event.startPipelineStage "FilterB", Event.FilterRequest "FilterB",
          Event.finishPipelineStage,
          Event.startPipelineStage "AppendHeaderFilter",
          Event.FilterResponse "AppendHeaderFilter", Event.finishPipelineStage,
          Event.startPipelineStage "AppendHeaderFilter",
          Event.FilterResponse "AppendHeaderFilter", Event.finishPipelineStage,
          Event.startPipelineStage "AppendHeaderFilter",
          Event.FilterResponse "AppendHeaderFilter", Event.finishPipelineStage],
        some 0⟩ :=
  (C10_sub_pipeline_runs_inside_outer_upstream worldEnv
    (.mk [FilterA, ConstRouter (.mk [.pipeline (.mk [FilterB]
      [AppendHeaderFilter "X-Depth" "3"] none)] [AppendHeaderFilter "X-Depth" "2"] none),
      Spy] [AppendHeaderFilter "X-Depth" "1"] none)
    (.mk [.pipeline (.mk [FilterB]
      [AppendHeaderFilter "X-Depth" "3"] none)] [AppendHeaderFilter "X-Depth" "2"] none)
    World.empty [FilterA] [Spy] _ ⟨[], []⟩ _ rfl ⟨rfl, trivial⟩
    (Or.inr ⟨_, _, ⟨[], ["ConstRouter"]⟩, rfl, rfl, rfl, rfl⟩)).2.2.2.trans rfl

theorem stageBlocks_append (a b : List Event) (h : stageBlocks a = true) :
    stageBlocks (a ++ b) = stageBlocks b := by
  induction a using stageBlocks.induct with
  | case1 => rfl
  | case2 t x ih => simp only [stageBlocks] at h; simpa [stageBlocks] using ih h
  | case3 n c t ih =>
    simp only [stageBlocks, Bool.and_eq_true] at h
    simp [stageBlocks, h.1, ih h.2]
  | case4 l h1 h2 h3 => 
    exfalso
    unfold stageBlocks at h
    split at h <;> simp_all

theorem stageBlocks_append_true (a b : List Event) (ha : stageBlocks a = true)
    (hb : stageBlocks b = true) : stageBlocks (a ++ b) = true := by
  rw [stageBlocks_append a b ha, hb]

theorem openStages_of_stageBlocks (t : List Event) (st : List String)
    (h : stageBlocks t = true) : openStages t st = some st := by
  induction t using stageBlocks.induct with
  | case1 => rfl
  | case2 t x ih => simp only [stageBlocks] at h; simpa [openStages] using ih h
  | case3 n c t ih =>
    simp only [stageBlocks, Bool.and_eq_true] at h
    cases c <;> simp_all [openStages, Event.invokes]
  | case4 l h1 h2 h3 =>
    exfalso
    unfold stageBlocks at h
    split at h <;> simp_all

theorem down_stageBlocks {σ ρ : Type} (env : Env σ ρ) (ds : List (Value σ ρ)) (req : σ)
    (res : ρ) : stageBlocks (down env ds req res).2 = true := by
  rw [down_eq_applyEach]
  unfold applyEach
  induction leadingResponseFilters ds with
  | nil => rfl
  | cons f fs ih =>
    simp only [List.flatMap_cons]
    exact stageBlocks_append_true _ _ (by simp [responseStage, stageBlocks, Event.invokes]) ih

theorem execLeaf_stageBlocks {σ ρ : Type} (env : Env σ ρ) (n : String)
    (f : σ → σ × Option ρ) (req : σ) : stageBlocks (execLeaf env n f req).trace = true := by
  simp [execLeaf, stageBlocks, Event.invokes]

mutual
theorem execute_stageBlocks {σ ρ : Type} (env : Env σ ρ) :
    ∀ (p : Pipeline σ ρ) (req : σ), stageBlocks (execute env p req).trace = true
  | .mk u d c, req => by
    rw [execute_eq]
    exact stageBlocks_append_true _ _ (upstream_stageBlocks env u req) (down_stageBlocks env _ _ _)
theorem upstream_stageBlocks {σ ρ : Type} (env : Env σ ρ) :
    ∀ (es : List (Value σ ρ)) (req : σ), stageBlocks (upstream env es req).trace = true
  | [], req => by simp [upstream, stageBlocks]
  | e :: es, req => by
    cases h : (dispatch env e req).res with
    | some r =>
      rw [upstream_cons_some env e es req r h]
      exact dispatch_stageBlocks env e req
    | none =>
      rw [upstream_cons_none env e es req h]
      exact stageBlocks_append_true _ _ (dispatch_stageBlocks env e req)
        (upstream_stageBlocks env es _)
theorem dispatch_stageBlocks {σ ρ : Type} (env : Env σ ρ) :
    ∀ (e : Value σ ρ) (req : σ), stageBlocks (dispatch env e req).trace = true
  | .pipeline q, req => by
    rw [dispatch_pipeline]
    exact execute_stageBlocks env q req
  | .router m sel, req => by
    have h := selected_stageBlocks env (sel (env.startPipelineStage m.typeName req)) m.typeName
    simpa [dispatch, Out.after] using h
  | .other m, req => by
    cases hf : m.FilterRequest with
    | none => simp [dispatch, hf, stageBlocks]
    | some f => simpa [dispatch, hf] using execLeaf_stageBlocks env m.typeName f req
theorem selected_stageBlocks {σ ρ : Type} (env : Env σ ρ) :
    ∀ (x : σ × Option (RequestFilter σ ρ)) (n : String),
      stageBlocks (Event.startPipelineStage n :: Event.SelectPipeline n ::
        (selected env x).trace) = true
  | (w, none), n => by simp [selected, stageBlocks, Event.invokes]
  | (w, some pipe), n => by
    have h := execFilter_stageBlocks env pipe (env.finishPipelineStage w)
    simpa [selected, Out.after, stageBlocks, Event.invokes] using h
theorem execFilter_stageBlocks {σ ρ : Type} (env : Env σ ρ) :
    ∀ (f : RequestFilter σ ρ) (req : σ), stageBlocks (execFilter env f req).trace = true
  | .pipeline q, req => by
    simpa [execFilter] using execute_stageBlocks env q req
  | .leaf n f, req => by
    simpa [execFilter] using execLeaf_stageBlocks env n f req
end

mutual
theorem executeFuel_enough {σ ρ : Type} (env : Env σ ρ) :
    ∀ (p : Pipeline σ ρ) (req : σ),
      ∃ n, ∀ m, n ≤ m → executeFuel env m p req = some (execute env p req)
  | .mk u d c, req => by
    obtain ⟨n, hn⟩ := upstreamWith_enough env u req
    refine ⟨n + 1, fun m hm => ?_⟩
    obtain ⟨k, rfl⟩ : ∃ k, m = k + 1 := ⟨m - 1, by omega⟩
    simp [executeFuel, Pipeline.Upstream, Pipeline.Downstream, hn k (by omega), execute]
theorem upstreamWith_enough {σ ρ : Type} (env : Env σ ρ) :
    ∀ (es : List (Value σ ρ)) (req : σ),
      ∃ n, ∀ m, n ≤ m →
        upstreamWith env (executeFuel env m) es req = some (upstream env es req)
  | [], req => ⟨0, fun m _ => by simp [upstreamWith, upstream]⟩
  | e :: es, req => by
    obtain ⟨n1, h1⟩ := dispatchWith_enough env e req
    obtain ⟨n2, h2⟩ := upstreamWith_enough env es (dispatch env e req).req
    refine ⟨max n1 n2, fun m hm => ?_⟩
    have e1 := h1 m (le_trans (le_max_left _ _) hm)
    have e2 := h2 m (le_trans (le_max_right _ _) hm)
    cases hr : (dispatch env e req).res with
    | some r => simp [upstreamWith, e1, hr, upstream_cons_some env e es req r hr]
    | none => simp [upstreamWith, e1, hr, e2, upstream_cons_none env e es req hr]
theorem dispatchWith_enough {σ ρ : Type} (env : Env σ ρ) :
    ∀ (e : Value σ ρ) (req : σ),
      ∃ n, ∀ m, n ≤ m →
        dispatchWith env (executeFuel env m) e req = some (dispatch env e req)
  | .pipeline q, req => by
    obtain ⟨n, hn⟩ := executeFuel_enough env q req
    exact ⟨n, fun m hm => by simp [dispatchWith, dispatch, hn m hm]⟩
  | .router m sel, req => by
    obtain ⟨n, hn⟩ := selectedWith_enough env (sel (env.startPipelineStage m.typeName req))
    exact ⟨n, fun k hk => by simp [dispatchWith, dispatch, hn k hk]⟩
  | .other m, req => by
    refine ⟨0, fun k _ => ?_⟩
    cases hf : m.FilterRequest <;> simp [dispatchWith, dispatch, hf]
theorem selectedWith_enough {σ ρ : Type} (env : Env σ ρ) :
    ∀ (x : σ × Option (RequestFilter σ ρ)),
      ∃ n, ∀ m, n ≤ m → selectedWith env (executeFuel env m) x = some (selected env x)
  | (w, none) => ⟨0, fun m _ => by simp [selectedWith, selected]⟩
  | (w, some pipe) => by
    obtain ⟨n, hn⟩ := execFilterWith_enough env pipe (env.finishPipelineStage w)
    exact ⟨n, fun m hm => by simp [selectedWith, selected, hn m hm]⟩
theorem execFilterWith_enough {σ ρ : Type} (env : Env σ ρ) :
    ∀ (f : RequestFilter σ ρ) (req : σ),
      ∃ n, ∀ m, n ≤ m →
        execFilterWith env (executeFuel env m) f req = some (execFilter env f req)
  | .pipeline q, req => by
    obtain ⟨n, hn⟩ := executeFuel_enough env q req
    exact ⟨n, fun m hm => by simp [execFilterWith, execFilter, hn m hm]⟩
  | .leaf n f, req => ⟨0, fun m _ => by simp [execFilterWith, execFilter]⟩
end

theorem openStages_append (a b : List Event) (st : List String) :
    openStages (a ++ b) st = (openStages a st).bind (fun s => openStages b s) := by
  induction a generalizing st with
  | nil => simp [openStages]
  | cons e t ih =>
    cases e with
    | finishPipelineStage =>
      cases st with
      | nil => simp [openStages]
      | cons x xs => simpa [openStages] using ih xs
    | startPipelineStage n => simpa [openStages] using ih (n :: st)
    | SelectPipeline n => simpa [openStages] using ih st
    | FilterRequest n => simpa [openStages] using ih st
    | FilterResponse n => simpa [openStages] using ih st
    | Printf n => simpa [openStages] using ih st

theorem openStages_take (t : List Event) (st r : List String) (k : Nat)
    (h : openStages t st = some r) : (openStages (t.take k) st).isSome = true := by
  have h2 := openStages_append (t.take k) (t.drop k) st
  rw [List.take_append_drop, h] at h2
  cases hk : openStages (t.take k) st with
  | none => rw [hk] at h2; simp at h2
  | some x => rfl

theorem stageBlocks_counts (t : List Event) (h : stageBlocks t = true) :
    t.countP Event.isStart = t.countP Event.isInvocation ∧
      t.countP Event.isFinish = t.countP Event.isInvocation := by
  induction t using stageBlocks.induct with
  | case1 => simp
  | case2 t x ih =>
    simp only [stageBlocks] at h
    simpa [List.countP_cons, Event.isStart, Event.isFinish, Event.isInvocation] using ih h
  | case3 n c t ih =>
    simp only [stageBlocks, Bool.and_eq_true] at h
    obtain ⟨i1, i2⟩ := ih h.2
    cases c <;>
      simp_all [List.countP_cons, Event.isStart, Event.isFinish, Event.isInvocation,
        Event.invokes]
  | case4 l h1 h2 h3 =>
    exfalso
    unfold stageBlocks at h
    split at h <;> simp_all

theorem down_append {σ ρ : Type} (env : Env σ ρ) (d1 d2 : List (Value σ ρ)) (req : σ)
    (res : ρ) (h : ∀ e ∈ d1, e.asResponseFilter.isSome = true) :
    down env (d1 ++ d2) req res =
      ((down env d2 (down env d1 req res).1 res).1,
        (down env d1 req res).2 ++ (down env d2 (down env d1 req res).1 res).2) := by
  induction d1 generalizing req with
  | nil => simp [down]
  | cons e es ih =>
    have he : e.asResponseFilter.isSome = true := h e (List.mem_cons_self _ _)
    obtain ⟨f, hf⟩ := Option.isSome_iff_exists.mp he
    obtain ⟨t, g⟩ := f
    rw [List.cons_append, down_cons_some env e _ req res t g hf,
      down_cons_some env e es req res t g hf,
      ih _ (fun x hx => h x (List.mem_cons_of_mem _ hx))]
    simp [List.append_assoc]

/-- C11: the trace of `execute` is a sequence of log lines and of stages, each stage made of
one start named after the type of the value invoked, the one invocation (of a router, a
request filter that is not a pipeline, or a response filter, whatever it answers), and one
finish; so starts, invocations and finishes are equally many, the stack of open stages
after the trace is the stack before it, and at no point of the trace is a finish called with
no stage open. -/
theorem C11_stage_calls_balanced {σ ρ : Type} (env : Env σ ρ) (p : Pipeline σ ρ) (req : σ) :
    stageBlocks (execute env p req).trace = true ∧
      (execute env p req).trace.countP Event.isStart =
        (execute env p req).trace.countP Event.isInvocation ∧
      (execute env p req).trace.countP Event.isFinish =
        (execute env p req).trace.countP Event.isInvocation ∧
      (∀ st, openStages (execute env p req).trace st = some st) ∧
      (∀ k, (openStages ((execute env p req).trace.take k) []).isSome = true) := by
  have h := execute_stageBlocks env p req
  have hc := stageBlocks_counts _ h
  refine ⟨h, hc.1, hc.2, fun st => openStages_of_stageBlocks _ st h, fun k => ?_⟩
  exact openStages_take _ [] [] k (openStages_of_stageBlocks _ [] h)

/-- C12: two pipelines with the same upstream list and the same downstream list, whatever
their `RequestDoneCallback`s, give the same outcome on the same request: the same response,
the same world and the same calls. -/
theorem C12_callback_never_invoked {σ ρ : Type} (env : Env σ ρ) (p1 p2 : Pipeline σ ρ)
    (req : σ) (hu : p1.Upstream = p2.Upstream) (hd : p1.Downstream = p2.Downstream) :
    execute env p1 req = execute env p2 req := by
  rw [execute_eq env p1, execute_eq env p2]
  unfold handedDown
  rw [hu, hd]

/-- C12, with a spy as callback: the outcome is the one without callback, and no response
of the spy exists in the world. -/
theorem C12_callback_never_invoked_witness :
    execute worldEnv (.mk [FilterA, FilterB] [AppendHeaderFilter "X-Test" "1"]
        (some SpyCallback)) World.empty =
      ⟨⟨[⟨200, [("X-Test", "1")], "ok"⟩], []⟩,
        [Event.startPipelineStage "FilterA", Event.FilterRequest "FilterA",
          Event.finishPipelineStage,
          Event.startPipelineStage "FilterB", Event.FilterRequest "FilterB",
          Event.finishPipelineStage,
          Event.startPipelineStage "AppendHeaderFilter",
          Event.FilterResponse "AppendHeaderFilter", Event.finishPipelineStage],
        some 0⟩ :=
  (C12_callback_never_invoked worldEnv
    (.mk [FilterA, FilterB] [AppendHeaderFilter "X-Test" "1"] (some SpyCallback))
    (.mk [FilterA, FilterB] [AppendHeaderFilter "X-Test" "1"] none) World.empty rfl rfl).trans rfl

/-- C13: `NewPipeline` has an empty upstream list, an empty downstream list and no callback;
`execute` on it makes no call that is traced and returns what the default-response builder
returns for status 404, no headers and body "Not found\n", in the world the builder left; in
the concrete world, that is one response with status 404 and body "Not found\n". -/
theorem C13_new_pipeline_answers_404 {σ ρ : Type} (env : Env σ ρ) (req : σ) :
    (NewPipeline : Pipeline σ ρ).Upstream = [] ∧
      (NewPipeline : Pipeline σ ρ).Downstream = [] ∧
      (NewPipeline : Pipeline σ ρ).RequestDoneCallback = none ∧
      execute env NewPipeline req =
        ⟨(env.SimpleResponse req 404 [] "Not found\n").1, [],
          some (env.SimpleResponse req 404 [] "Not found\n").2⟩ ∧
      execute worldEnv NewPipeline World.empty =
        ⟨⟨[⟨404, [], "Not found\n"⟩], []⟩, [], some 0⟩ := by
  refine ⟨rfl, rfl, rfl, ?_, rfl⟩
  simp [NewPipeline, execute, upstream, orDefault, down]

theorem downH_pipelines {σ ρ : Type} (env : Env σ ρ) (ds : List (Elem σ ρ)) (h : Heap σ ρ)
    (res : ρ) : (downH env ds h res).1.pipelines = h.pipelines := by
  induction ds generalizing h with
  | nil => rfl
  | cons e es ih =>
    cases ha : e.asResponseFilter with
    | none => simp [downH, ha]
    | some f =>
      obtain ⟨t, g⟩ := f
      simp only [downH, ha]
      rw [ih]

theorem execLeafH_pipelines {σ ρ : Type} (env : Env σ ρ) (n : String) (f : σ → σ × Option ρ)
    (h : Heap σ ρ) : (execLeafH env n f h).heap.pipelines = h.pipelines := rfl

theorem orDefaultH_pipelines {σ ρ : Type} (env : Env σ ρ) (u : Ran σ ρ) :
    (orDefaultH env u).1.pipelines = u.heap.pipelines := by
  unfold orDefaultH
  cases u.res <;> rfl

theorem execFilterH_pipelines {σ ρ : Type} (env : Env σ ρ)
    (exec : Nat → Heap σ ρ → Option (Ran σ ρ))
    (hexec : ∀ q h r, exec q h = some r → r.heap.pipelines = h.pipelines)
    (f : FilterRef σ ρ) (h : Heap σ ρ) (r : Ran σ ρ) (hr : execFilterH env exec f h = some r) :
    r.heap.pipelines = h.pipelines := by
  cases f with
  | pipeline ptr => exact hexec ptr h r hr
  | leaf n g =>
    simp only [execFilterH, Option.some.injEq] at hr
    rw [← hr, execLeafH_pipelines]

theorem dispatchH_pipelines {σ ρ : Type} (env : Env σ ρ)
    (exec : Nat → Heap σ ρ → Option (Ran σ ρ))
    (hexec : ∀ q h r, exec q h = some r → r.heap.pipelines = h.pipelines)
    (e : Elem σ ρ) (h : Heap σ ρ) (r : Ran σ ρ) (hr : dispatchH env exec e h = some r) :
    r.heap.pipelines = h.pipelines := by
  cases e with
  | pipeline ptr => exact hexec ptr h r hr
  | router m sel =>
    simp only [dispatchH] at hr
    cases hs : (sel (env.startPipelineStage m.typeName h.req)).2 with
    | none =>
      rw [hs] at hr
      simp only [Option.some.injEq] at hr
      rw [← hr]
    | some pipe =>
      rw [hs] at hr
      simp only [Option.map_eq_some'] at hr
      obtain ⟨o, ho, rfl⟩ := hr
      have := execFilterH_pipelines env exec hexec pipe _ o ho
      simpa [Ran.after] using this
  | other m =>
    simp only [dispatchH] at hr
    cases hf : m.FilterRequest with
    | none =>
      rw [hf] at hr
      simp only [Option.some.injEq] at hr
      rw [← hr]
    | some f =>
      rw [hf] at hr
      simp only [Option.some.injEq] at hr
      rw [← hr, execLeafH_pipelines]

theorem upstreamH_pipelines {σ ρ : Type} (env : Env σ ρ)
    (exec : Nat → Heap σ ρ → Option (Ran σ ρ))
    (hexec : ∀ q h r, exec q h = some r → r.heap.pipelines = h.pipelines)
    (es : List (Elem σ ρ)) (h : Heap σ ρ) (r : Ran σ ρ)
    (hr : upstreamH env exec es h = some r) : r.heap.pipelines = h.pipelines := by
  induction es generalizing h r with
  | nil =>
    simp only [upstreamH, Option.some.injEq] at hr
    rw [← hr]
  | cons e es ih =>
    simp only [upstreamH] at hr
    cases hd : dispatchH env exec e h with
    | none => rw [hd] at hr; cases hr
    | some o =>
      have ho := dispatchH_pipelines env exec hexec e h o hd
      rw [hd] at hr
      simp only at hr
      cases hres : o.res with
      | some x =>
        rw [hres] at hr
        simp only [Option.some.injEq] at hr
        rw [← hr, ho]
      | none =>
        rw [hres] at hr
        simp only [Option.map_eq_some'] at hr
        obtain ⟨o2, ho2, rfl⟩ := hr
        have := ih o.heap o2 ho2
        simpa [Ran.after, ho] using this

theorem executeH_pipelines {σ ρ : Type} (env : Env σ ρ) (n : Nat) :
    ∀ (ptr : Nat) (h : Heap σ ρ) (r : Ran σ ρ), executeH env n ptr h = some r →
      r.heap.pipelines = h.pipelines := by
  induction n with
  | zero => intro ptr h r hr; simp [executeH] at hr
  | succ n ih =>
    intro ptr h r hr
    simp only [executeH] at hr
    cases hp : h.pipelines[ptr]? with
    | none => rw [hp] at hr; cases hr
    | some p =>
      rw [hp] at hr
      simp only at hr
      cases hu : upstreamH env (executeH env n) p.Upstream h with
      | none => rw [hu] at hr; cases hr
      | some u =>
        rw [hu] at hr
        simp only at hr
        have h1 := upstreamH_pipelines env (executeH env n) ih p.Upstream h u hu
        cases hp2 : (orDefaultH env u).1.pipelines[ptr]? with
        | none => rw [hp2] at hr; cases hr
        | some p2 =>
          rw [hp2] at hr
          simp only [Option.some.injEq] at hr
          rw [← hr]
          show (downH env p2.Downstream _ _).1.pipelines = h.pipelines
          rw [downH_pipelines, orDefaultH_pipelines, h1]

theorem executeH_receiver {σ ρ : Type} (env : Env σ ρ) (n ptr : Nat) (h : Heap σ ρ)
    (r : Ran σ ρ) (hr : executeH env n ptr h = some r) :
    ∃ p, h.pipelines[ptr]? = some p := by
  cases n with
  | zero => simp [executeH] at hr
  | succ n =>
    simp only [executeH] at hr
    cases hp : h.pipelines[ptr]? with
    | none => rw [hp] at hr; cases hr
    | some p => exact ⟨p, rfl⟩

/-- C14: with the receiver a pointer into the heap and `execute` reading its lists from the
heap, whenever `execute` returns, the heap holds the same `Pipeline` structs as before, the
nested ones too: the receiver is there, with the upstream list, the downstream list and the
callback it had, and a second execution, on any request and with any depth, starts from the
same definition as one started in the heap before. -/
theorem C14_execute_leaves_pipeline_unchanged {σ ρ : Type} (env : Env σ ρ) (n ptr : Nat)
    (h : Heap σ ρ) (r : Ran σ ρ) (hrun : executeH env n ptr h = some r) :
    r.heap.pipelines = h.pipelines ∧
      (∃ p, h.pipelines[ptr]? = some p ∧ r.heap.pipelines[ptr]? = some p ∧
        (r.heap.pipelines[ptr]?.map PipelineObj.Upstream = some p.Upstream) ∧
        (r.heap.pipelines[ptr]?.map PipelineObj.Downstream = some p.Downstream) ∧
        (r.heap.pipelines[ptr]?.map PipelineObj.RequestDoneCallback =
          some p.RequestDoneCallback)) ∧
      (∀ (m : Nat) (req2 : σ),
        executeH env m ptr ⟨r.heap.pipelines, req2⟩ =
          executeH env m ptr ⟨h.pipelines, req2⟩) := by
  have hp := executeH_pipelines env n ptr h r hrun
  obtain ⟨p, hpp⟩ := executeH_receiver env n ptr h r hrun
  refine ⟨hp, ⟨p, hpp, ?_, ?_, ?_, ?_⟩, fun m req2 => ?_⟩
  · rw [hp, hpp]
  · rw [hp, hpp]; rfl
  · rw [hp, hpp]; rfl
  · rw [hp, hpp]; rfl
  · rw [hp]

/-- C14, on `exampleHeap`: `execute` on pipeline 0 returns (through a router into pipeline 1)
with the response of `FilterB` and both headers appended, and the two pipelines in the heap
are the ones before, the callback of pipeline 0 included. -/
theorem C14_execute_leaves_pipeline_unchanged_witness :
    ∃ r, executeH worldEnv 2 0 exampleHeap = some r ∧
      r.heap.req = ⟨[⟨200, [("X-Inner", "1"), ("X-Outer", "1")], "ok"⟩], []⟩ ∧
      r.res = some 0 ∧
      r.trace =
        [Event.startPipelineStage "FilterA", Event.FilterRequest "FilterA",
          Event.finishPipelineStage,
          Event.startPipelineStage "PtrRouter", Event.SelectPipeline "PtrRouter",
          Event.finishPipelineStage,
          Event.startPipelineStage "FilterB", Event.FilterRequest "FilterB",
          Event.finishPipelineStage,
          Event.startPipelineStage "AppendInner", Event.FilterResponse "AppendInner",
          Event.finishPipelineStage,
          Event.startPipelineStage "AppendOuter", Event.FilterResponse "AppendOuter",
          Event.finishPipelineStage] ∧
      r.heap.pipelines = exampleHeap.pipelines :=
  match hr : executeH worldEnv 2 0 exampleHeap with
  | some r =>
    ⟨r, rfl, by cases hr; rfl, by cases hr; rfl, by cases hr; rfl,
      (C14_execute_leaves_pipeline_unchanged worldEnv 2 0 exampleHeap r hr).1⟩
  | none => by cases hr

/-- C15: on a request filter that is not a `*Pipeline`, `execFilter` starts a stage named
after the filter's type, then calls `FilterRequest` in the world so obtained, then finishes
the stage in the world the filter left, and returns the filter's answer; on a `*Pipeline` it
is that pipeline's `execute` in the world as it is, with no call of its own, so its trace is
the one of the nested execution.  The `RequestFilter` case of the loop is `execFilter`. -/
theorem C15_execFilter_stage_unless_pipeline {σ ρ : Type} (env : Env σ ρ) (req : σ) :
    (∀ (n : String) (f : σ → σ × Option ρ),
        execFilter env (.leaf n f) req =
          ⟨env.finishPipelineStage (f (env.startPipelineStage n req)).1,
            [Event.startPipelineStage n, Event.FilterRequest n, Event.finishPipelineStage],
            (f (env.startPipelineStage n req)).2⟩) ∧
      (∀ q : Pipeline σ ρ, execFilter env (.pipeline q) req = execute env q req ∧
        (execFilter env (.pipeline q) req).trace = (execute env q req).trace) ∧
      (∀ (n t : String) (f : σ → σ × Option ρ) (g : Option (σ → ρ → σ)),
        dispatch env (.other ⟨n, t, some f, g⟩) req = execFilter env (.leaf n f) req) ∧
      (∀ q : Pipeline σ ρ, dispatch env (.pipeline q) req = execFilter env (.pipeline q) req) := by
  refine ⟨fun n f => ?_, fun q => ?_, fun n t f g => ?_, fun q => ?_⟩
  · simp [execFilter, execLeaf]
  · simp [execFilter]
  · simp [dispatch, execFilter]
  · simp [dispatch, execFilter]

/-- C16: on a router, the loop starts a stage named after the router's type, calls
`SelectPipeline` in the world so obtained, and finishes the stage in the world the router
left; only then, in that world, the selected filter (if any) is run by `execFilter`, so all
its calls come after the three calls of the router's stage. -/
theorem C16_router_stage_brackets_select_only {σ ρ : Type} (env : Env σ ρ)
    (m : Methods σ ρ) (sel : σ → σ × Option (RequestFilter σ ρ)) (req : σ) :
    dispatch env (.router m sel) req =
      match (sel (env.startPipelineStage m.typeName req)).2 with
      | none =>
        ⟨env.finishPipelineStage (sel (env.startPipelineStage m.typeName req)).1,
          [Event.startPipelineStage m.typeName, Event.SelectPipeline m.typeName,
            Event.finishPipelineStage], none⟩
      | some pipe =>
        (execFilter env pipe
          (env.finishPipelineStage (sel (env.startPipelineStage m.typeName req)).1)).after
          [Event.startPipelineStage m.typeName, Event.SelectPipeline m.typeName,
            Event.finishPipelineStage] := by
  rcases hs : sel (env.startPipelineStage m.typeName req) with ⟨w1, _ | pipe⟩
  · simp [dispatch, hs, selected, Out.after]
  · simp [dispatch, hs, selected, Out.after]

/-- C17: when the only upstream entry of `P` is the pipeline `Q` and every downstream entry
of `Q` is a response filter, `execute` on `P` has the same outcome (response, world, calls
in order) as `execute` on the flat pipeline with the upstream list of `Q` and the downstream
list of `Q` followed by the one of `P`. -/
theorem C17_wrapping_is_transparent {σ ρ : Type} (env : Env σ ρ) (P Q : Pipeline σ ρ)
    (c : Option (RequestFilter σ ρ)) (req : σ)
    (hP : P.Upstream = [.pipeline Q])
    (hQ : ∀ e ∈ Q.Downstream, e.asResponseFilter.isSome = true) :
    execute env P req =
      execute env (.mk Q.Upstream (Q.Downstream ++ P.Downstream) c) req := by
  have hres : (dispatch env (.pipeline Q) req).res = some (handedDown env Q req).2 := by
    rw [dispatch_pipeline, execute_res]
  have hu : upstream env P.Upstream req = execute env Q req := by
    rw [hP, upstream_cons_some env _ [] req _ hres, dispatch_pipeline]
  have hd : handedDown env P req = ((execute env Q req).req, (handedDown env Q req).2) := by
    rw [handedDown_of_some env P req (handedDown env Q req).2 (by rw [hu, execute_res]), hu]
  have hflat : handedDown env (.mk Q.Upstream (Q.Downstream ++ P.Downstream) c) req =
      handedDown env Q req := rfl
  rw [execute_eq env P, hd, hu, execute_eq env (.mk _ _ _), hflat]
  show _ = Out.mk (down env (Q.Downstream ++ P.Downstream) _ _).1
    (_ ++ (down env (Q.Downstream ++ P.Downstream) _ _).2) _
  rw [down_append env Q.Downstream P.Downstream _ _ hQ, execute_eq env Q]
  simp [Pipeline.Upstream, List.append_assoc]

/-- C17, with `Q` holding `FilterB` and one downstream filter, wrapped in `P` with another
downstream filter: the outcome is the one of the flat pipeline. -/
theorem C17_wrapping_is_transparent_witness :
    execute worldEnv (.mk [.pipeline (.mk [FilterA, FilterB] [AppendHeaderFilter "X-Q" "1"]
        none)] [AppendHeaderFilter "X-P" "2"] none) World.empty =
      ⟨⟨[⟨200, [("X-Q", "1"), ("X-P", "2")], "ok"⟩], []⟩,
        [Event.startPipelineStage "FilterA", Event.FilterRequest "FilterA",
          Event.finishPipelineStage,
          Event.startPipelineStage "FilterB", Event.FilterRequest "FilterB",
          Event.finishPipelineStage,
          Event.startPipelineStage "AppendHeaderFilter",
          Event.FilterResponse "AppendHeaderFilter", Event.finishPipelineStage,
          Event.startPipelineStage "AppendHeaderFilter",
          Event.FilterResponse "AppendHeaderFilter", Event.finishPipelineStage],
        some 0⟩ :=
  (C17_wrapping_is_transparent worldEnv
    (.mk [.pipeline (.mk [FilterA, FilterB] [AppendHeaderFilter "X-Q" "1"] none)]
      [AppendHeaderFilter "X-P" "2"] none)
    (.mk [FilterA, FilterB] [AppendHeaderFilter "X-Q" "1"] none) none World.empty rfl
    (by decide)).trans rfl

/-- C18: for every pipeline (a finite tree of nesting by its type, with filters and routers
that are functions and so return) and every request there is a depth of recursion through
`execFilter` that suffices: run with that bound or any larger one, `execute` returns, and
returns the outcome of `execute`.  The bound is needed: a pipeline three deep does not
return within depth two and does within depth three. -/
theorem C18_execute_terminates {σ ρ : Type} (env : Env σ ρ) (p : Pipeline σ ρ) (req : σ) :
    (∃ n, ∀ m, n ≤ m → executeFuel env m p req = some (execute env p req)) ∧
      executeFuel worldEnv 2
          (.mk [ConstRouter (.mk [.pipeline (.mk [FilterB] [] none)] [] none)] [] none)
          World.empty = none ∧
      executeFuel worldEnv 3
          (.mk [ConstRouter (.mk [.pipeline (.mk [FilterB] [] none)] [] none)] [] none)
          World.empty =
        some ⟨⟨[⟨200, [], "ok"⟩], []⟩,
          [Event.startPipelineStage "ConstRouter", Event.SelectPipeline "ConstRouter",
            Event.finishPipelineStage,
            Event.startPipelineStage "FilterB", Event.FilterRequest "FilterB",
            Event.finishPipelineStage],
          some 0⟩ :=
  ⟨executeFuel_enough env p req, rfl, rfl⟩

/-- C19, refuted as stated: `SelfRouter` has both a `SelectPipeline` and a `FilterRequest`
method and its `SelectPipeline` returns `SelfRouter` itself; `execute` takes the `Router`
case, and `execFilter` then calls the entry's own `FilterRequest`: the call is in the trace,
and the response returned is the one that call made.  So it is not so that the
`FilterRequest` of an upstream entry with both methods is never called. -/
theorem C19_router_selecting_itself_counterexample :
    SelfRouter = .router ⟨"SelfRouter", "&SelfRouter", some selfFilterRequest, none⟩
        (fun w => (w, some (.leaf "SelfRouter" selfFilterRequest))) ∧
      execute worldEnv (.mk [SelfRouter] [] none) World.empty =
        ⟨⟨[⟨500, [], "self"⟩], []⟩,
          [Event.startPipelineStage "SelfRouter", Event.SelectPipeline "SelfRouter",
            Event.finishPipelineStage,
            Event.startPipelineStage "SelfRouter", Event.FilterRequest "SelfRouter",
            Event.finishPipelineStage],
          some 0⟩ ∧
      ¬ (∀ (m : Methods World Nat) (sel : World → World × Option (RequestFilter World Nat))
          (f : World → World × Option Nat), m.FilterRequest = some f →
          Event.FilterRequest m.typeName ∉
            (execute worldEnv (.mk [.router m sel] [] none) World.empty).trace) := by
  refine ⟨rfl, rfl, fun h => ?_⟩
  exact h ⟨"SelfRouter", "&SelfRouter", some selfFilterRequest, none⟩
    (fun w => (w, some (.leaf "SelfRouter" selfFilterRequest))) selfFilterRequest rfl
    (by decide)

/-- C19, amended: on an upstream value that has both a `SelectPipeline` and a
`FilterRequest` method the loop takes the `Router` case: it runs the router stage around
`SelectPipeline` and then `execFilter` on the filter selected, if any, and nothing else; so
the outcome is the same whatever the value's own `FilterRequest` is, which is called only as
part of what `SelectPipeline` returned.  When `SelectPipeline` returns nil the dispatch
consists of the router stage only, yields nil, and the loop goes on with the next element. -/
theorem C19_router_case_first {σ ρ : Type} (env : Env σ ρ) (n t : String)
    (f : σ → σ × Option ρ) (g : Option (σ → ρ → σ))
    (sel : σ → σ × Option (RequestFilter σ ρ)) (req w1 : σ) (es : List (Value σ ρ))
    (hsel : sel (env.startPipelineStage n req) = (w1, none)) :
    (∀ (sel2 : σ → σ × Option (RequestFilter σ ρ)) (w : σ),
        dispatch env (.router ⟨n, t, some f, g⟩ sel2) w =
          match (sel2 (env.startPipelineStage n w)).2 with
          | none =>
            ⟨env.finishPipelineStage (sel2 (env.startPipelineStage n w)).1,
              [Event.startPipelineStage n, Event.SelectPipeline n,
                Event.finishPipelineStage], none⟩
          | some pipe =>
            (execFilter env pipe
              (env.finishPipelineStage (sel2 (env.startPipelineStage n w)).1)).after
              [Event.startPipelineStage n, Event.SelectPipeline n,
                Event.finishPipelineStage]) ∧
      (∀ (f2 : Option (σ → σ × Option ρ)) (sel2 : σ → σ × Option (RequestFilter σ ρ)) (w : σ),
        dispatch env (.router ⟨n, t, some f, g⟩ sel2) w =
          dispatch env (.router ⟨n, t, f2, g⟩ sel2) w) ∧
      dispatch env (.router ⟨n, t, some f, g⟩ sel) req =
        ⟨env.finishPipelineStage w1,
          [Event.startPipelineStage n, Event.SelectPipeline n, Event.finishPipelineStage],
          none⟩ ∧
      upstream env (.router ⟨n, t, some f, g⟩ sel :: es) req =
        (upstream env es (env.finishPipelineStage w1)).after
          [Event.startPipelineStage n, Event.SelectPipeline n, Event.finishPipelineStage] := by
  have hdis := dispatch_router_none env ⟨n, t, some f, g⟩ sel req w1 hsel
  refine ⟨fun sel2 w => ?_, fun f2 sel2 w => ?_, hdis, ?_⟩
  · rcases hs : sel2 (env.startPipelineStage n w) with ⟨w2, _ | pipe⟩
    · simp [dispatch, hs, selected, Out.after]
    · simp [dispatch, hs, selected, Out.after]
  · simp [dispatch]
  · rw [upstream_cons_none env _ es req (by rw [hdis]), hdis]

/-- C19, with upstream `[RouterAndFilter, FilterB]`: the router selects nil, its own
`FilterRequest` (which would answer a response with status 500) is not called, and `FilterB`
answers. -/
theorem C19_router_case_first_witness :
    upstream worldEnv [RouterAndFilter, FilterB] World.empty =
      ⟨⟨[⟨200, [], "ok"⟩], []⟩,
        [Event.startPipelineStage "RouterAndFilter", Event.SelectPipeline "RouterAndFilter",
          Event.finishPipelineStage,
          Event.startPipelineStage "FilterB", Event.FilterRequest "FilterB",
          Event.finishPipelineStage],
        some 0⟩ :=
  (C19_router_case_first worldEnv "RouterAndFilter" "&RouterAndFilter"
    (fun w => ((w.alloc ⟨500, [], "spy"⟩).1, some (w.alloc ⟨500, [], "spy"⟩).2)) none
    (fun w => (w, none)) World.empty ⟨[], ["RouterAndFilter"]⟩ [FilterB] rfl).2.2.2.trans rfl

end Falcore
